import Mathlib

/-!
# rDebug: a shallow embedding of the leveled logging core

The definitions below follow `rDebugLevel.h` and `rDebug.cpp`.  The build that is
modelled is the default one, in which `QT_NO_DEBUG_OUTPUT` is not defined.

* Process-wide statics (`rDebug_GlobalLevel::mMaxLevel`, `rDebug_Signaller::pSignaller`, ...)
  are fields of one explicit `World` value that every operation takes and returns.
* Objects are identified by their address, a natural number; the fields of the file writers
  live in `World.fwHeap`.
* The file system is a finite map from `Path` to file content.  All file writers of a
  world log to the same `mFileName`, which is `Path.primary`; its numbered backups
  `<base>.N.<ext>` are `Path.backup N`.
* A `QString` is a Lean `String`; a file's size is the length of its content (one byte per
  character); a `QDateTime` is represented by the text `getDateTimeStr` renders for it.
* `QFile::rename` fails, changing nothing, when the source is missing or the destination
  exists; `QFile::open` in append mode succeeds and creates an absent file.
* `World.trace` is a ghost log of the deliveries made to the three sinks: the signal
  `sig_logline` emitted, the Qt message function `to_xDebug` calls, and the record line
  `write_file` appends.
* `World.halted` records that the process no longer runs: `qFatal` aborted it (it prints the
  message and then aborts; `rDebug_CLIDemo.h` notes that it closes the application at once),
  or a null `mpLogfile` was dereferenced.
* The text `vsnprintf` formats is a parameter of `rDebugBase.writer`; `__FILE__` in
  `write_wrap` is taken to be "rDebug.cpp".
-/

namespace RDebug

/-! ## rDebugLevel.h -/

/-- The enum `rDebugLevel::rMsgType`. -/
inductive rMsgType where
  | Silent
  | Emergency
  | Alert
  | Critical
  | Error
  | Warning
  | Notice
  | Informational
  | Debug
  | All
  deriving DecidableEq, Repr

/-- The enumerator values: `Silent=-1`, `Emergency=0`, then consecutive up to `Debug=7`,
and `All=255`.  Comparisons of two `rMsgType` values in the source compare these integers. -/
def rMsgType.toInt : rMsgType → Int
  | .Silent => -1
  | .Emergency => 0
  | .Alert => 1
  | .Critical => 2
  | .Error => 3
  | .Warning => 4
  | .Notice => 5
  | .Informational => 6
  | .Debug => 7
  | .All => 255

/-- The eight severities a record can carry, `Emergency` .. `Debug` (the two sentinels
`Silent` and `All` are thresholds only). -/
def rMsgType.isSeverity : rMsgType → Bool
  | .Silent => false
  | .All => false
  | _ => true

/-! ## Basic data -/

abbrev QString := String

/-- A `QDateTime`, represented by the text `yyyy-MM-dd HH:mm:ss,zzz` that
`rDebugBase::getDateTimeStr` renders for it. -/
abbrev QDateTime := String

/-- The triple `FileLineFunc_t`; the two `const char*` members may be null. -/
structure FileLineFunc_t where
  mFile : Option String
  mLine : Int
  mFunc : Option String
  deriving DecidableEq, Repr

/-- The Qt message streams `to_xDebug` writes to. -/
inductive QtStream where
  | qFatal
  | qCritical
  | qWarning
  | qDebug
  deriving DecidableEq, Repr

/-- Ghost log entries: one per delivery of a record to a sink. -/
inductive Event where
  /-- `emit sig_logline( CodeLocation, Time, lvl, LogId, line )` in `signal_line`. -/
  | sig_logline (CodeLocation : FileLineFunc_t) (Time : QDateTime) (lvl : Int) (LogId : Nat)
      (line : QString)
  /-- One of `qFatal`, `qCritical`, `qWarning`, `qDebug` called by `to_xDebug`. -/
  | console (stream : QtStream) (msg : QString)
  /-- The record `write_file` hands to `write_file_raw` once its gate is passed. -/
  | file_line (CodeLocation : FileLineFunc_t) (Time : QDateTime) (Level : rMsgType)
      (LogId : Nat) (line : QString)
  deriving DecidableEq, Repr

def Event.isSignal : Event → Bool
  | .sig_logline .. => true
  | _ => false

def Event.isConsole : Event → Bool
  | .console .. => true
  | _ => false

def Event.isFile : Event → Bool
  | .file_line .. => true
  | _ => false

/-- Why the process stopped. -/
inductive Halt where
  /-- `qFatal` aborted the process. -/
  | fatal
  /-- A null `mpLogfile` was dereferenced. -/
  | nullDeref
  deriving DecidableEq, Repr

/-! ## The file system -/

/-- The paths `rDebug_Filewriter` touches: `mFileName` itself and
`fi.path() + '/' + fi.completeBaseName() + ".N." + fi.suffix()`. -/
inductive Path where
  | primary
  | backup (N : Nat)
  deriving DecidableEq, Repr

def Path.isBackup : Path → Bool
  | .primary => false
  | .backup _ => true

/-- A directory: a finite map from path to file content. -/
abbrev FS := AList (fun _ : Path => String)

/-- `QFileInfo::exists()`. -/
def FS.fileExists (fs : FS) (p : Path) : Bool := (fs.lookup p).isSome

/-- `QFile( used_file ).rename( free_file )`: fails, changing nothing, when the source is
missing or the destination already exists; otherwise the content moves. -/
def FS.rename (fs : FS) (used_file free_file : Path) : FS :=
  match fs.lookup used_file with
  | none => fs
  | some c => if fs.fileExists free_file then fs else (fs.erase used_file).insert free_file c

/-- `QFile::open(QIODevice::Append | QIODevice::Text)`: an absent file is created empty, an
existing one keeps its content. -/
def FS.openAppend (fs : FS) (p : Path) : FS :=
  if fs.fileExists p then fs else fs.insert p ""

/-- Text streamed into an open `QFile` in append mode and flushed. -/
def FS.append (fs : FS) (p : Path) (text : String) : FS :=
  fs.insert p ((fs.lookup p).getD "" ++ text)

/-- `QFileInfo::size()` of an existing file. -/
def FS.size (fs : FS) (p : Path) : Nat := ((fs.lookup p).getD "").length

/-- The backup indices present on disk. -/
def FS.backups (fs : FS) : List Path := fs.keys.filter Path.isBackup

/-- The number of backup files `<base>.N.<ext>` on disk. -/
def FS.backupCount (fs : FS) : Nat := fs.backups.length

/-! ## Process state -/

/-- A `QFile` object; only whether it is open matters. -/
structure QFile where
  isOpen : Bool
  deriving DecidableEq, Repr

/-- The non-static members of one `rDebug_Filewriter` (its `mFileName` is `Path.primary`). -/
structure rDebug_Filewriter where
  mMaxSize : Int
  mMaxBackups : Int
  mpLogfile : Option QFile
  deriving DecidableEq, Repr

/-- The process: the statics of the three classes, the file writer objects, the disk, and
the environment the code reads (`applicationPid`, the clock, the default `FormatLen` argument
of `getLogIdStr`, which `rDebug.h` declares). -/
structure World where
  /-- `rDebug_GlobalLevel::mMaxLevel` -/
  globalLevel : rMsgType
  /-- `rDebug_Signaller::mMaxLevel` -/
  sigMaxLevel : rMsgType
  /-- `rDebug_Signaller::pSignaller` -/
  pSignaller : Option Nat
  /-- `rDebug_Filewriter::mMaxLevel` -/
  fwMaxLevel : rMsgType
  /-- `rDebug_Filewriter::mDumpCodeLocation` -/
  mDumpCodeLocation : Bool
  /-- `rDebug_Filewriter::pFilewriter` -/
  pFilewriter : Option Nat
  /-- The file writer object at each address. -/
  fwHeap : Nat → rDebug_Filewriter
  /-- The directory of `mFileName`. -/
  fs : FS
  /-- `QCoreApplication::applicationPid()` -/
  applicationPid : Nat
  /-- The local time the next `QDateTime` is built from. -/
  now : QDateTime
  /-- The default value of the parameter `FormatLen` of `getLogIdStr`. -/
  defaultFormatLen : Int
  /-- Ghost log of deliveries. -/
  trace : List Event
  /-- Set once the process has stopped. -/
  halted : Option Halt

/-- Sequencing of statements: nothing runs once the process has stopped. -/
def World.andThen (w : World) (f : World → World) : World :=
  match w.halted with
  | none => f w
  | some _ => w

/-- The deliveries added to the ghost log between `w` and `w1`. -/
def World.newEvents (w w1 : World) : List Event := w1.trace.drop w.trace.length

/-! ## rDebug_GlobalLevel -/

def rDebug_GlobalLevel.set (w : World) (MaxLevel : rMsgType) : World :=
  { w with globalLevel := MaxLevel }

def rDebug_GlobalLevel.get (w : World) : rMsgType := w.globalLevel

/-! ## rDebug_Signaller -/

/-- The constructor `rDebug_Signaller::rDebug_Signaller(MaxLevel)` run for the object at
address `this`. -/
def rDebug_Signaller.ctor (w : World) (this : Nat) (MaxLevel : rMsgType) : World :=
  let w := { w with sigMaxLevel := MaxLevel }
  if MaxLevel.toInt ≤ rMsgType.Silent.toInt then
    { w with pSignaller := none }
  else
    { w with pSignaller := some this }

/-- The destructor `rDebug_Signaller::~rDebug_Signaller()` run for the object at `this`. -/
def rDebug_Signaller.dtor (w : World) (_this : Nat) : World :=
  { w with pSignaller := none }

def rDebug_Signaller.setMaxLevel (w : World) (MaxLevel : rMsgType) : World :=
  { w with sigMaxLevel := MaxLevel }

/-- The condition of the `if` in `rDebug_Signaller::signal_line`. -/
def rDebug_Signaller.gate (mMaxLevel Level : rMsgType) : Bool :=
  decide (mMaxLevel.toInt ≥ Level.toInt)

def rDebug_Signaller.signal_line (w : World) (CodeLocation : FileLineFunc_t)
    (Time : QDateTime) (Level : rMsgType) (LogId : Nat) (line : QString) : World :=
  if rDebug_Signaller.gate w.sigMaxLevel Level then
    let lvl := Level.toInt
    { w with trace := w.trace ++ [Event.sig_logline CodeLocation Time lvl LogId line] }
  else
    w

/-! ## Formatting helpers of rDebugBase -/

/-- `rDebugBase::getLevelName`. -/
def rDebugBase.getLevelName : rMsgType → QString
  | .Debug => "Debg"
  | .Informational => "Info"
  | .Notice => "Note"
  | .Warning => "Warn"
  | .Error => "Err!"
  | .Critical => "Crit"
  | .Alert => "Alrt"
  | _ => "Emrg"

/-- `rDebugBase::getDateTimeStr`. -/
def rDebugBase.getDateTimeStr (Time : QDateTime) : QString := Time

/-- `QString::arg( a, fieldWidth, base, fillChar )` for an unsigned number: the digits of
`a` in `base` (lower case), padded on the left with `fillChar` up to `fieldWidth`. -/
def QString.argNum (a : Nat) (fieldWidth : Nat) (base : Nat) (fillChar : Char) : QString :=
  String.mk (List.leftpad fieldWidth fillChar (Nat.toDigits base a))

/-- `rDebugBase::getLogIdStr` on a 64-bit `LogId`. -/
def rDebugBase.getLogIdStr (LogId : Nat) (FormatLen : Int) : QString :=
  if FormatLen = 8 then
    QString.argNum LogId 8 10 '0'
  else if FormatLen = 16 then
    "0x" ++ QString.argNum (LogId >>> 32) 8 16 '0' ++ ":"
      ++ QString.argNum (LogId &&& 0xFFFFFFFF) 8 16 '0'
  else
    QString.argNum LogId 0 10 ' '

/-! ## rDebug_Filewriter -/

/-- The text `write_file_raw` streams into the log file for one line. -/
def rDebug_Filewriter.renderLine (mDumpCodeLocation : Bool) (CodeLocation : FileLineFunc_t)
    (Time : QDateTime) (Level : rMsgType) (LogId : Nat) (line : QString) : String :=
  rDebugBase.getDateTimeStr Time ++ " [" ++ rDebugBase.getLevelName Level ++ "] "
    ++ rDebugBase.getLogIdStr LogId 0 ++ ", " ++ line
    ++ (if mDumpCodeLocation then
          " \x7bfrom " ++ CodeLocation.mFunc.getD "func" ++ " in "
            ++ CodeLocation.mFile.getD "file" ++ ":" ++ toString CodeLocation.mLine ++ "\x7d"
        else "")
    ++ "\n"

/-- `rDebug_Filewriter::write_file_raw`: the line reaches the file when `mpLogfile` is an
open device; a `QTextStream` without an open device drops it. -/
def rDebug_Filewriter.write_file_raw (w : World) (this : Nat) (CodeLocation : FileLineFunc_t)
    (Time : QDateTime) (Level : rMsgType) (LogId : Nat) (line : QString) : World :=
  match (w.fwHeap this).mpLogfile with
  | some ⟨true⟩ =>
    let WholeMsg :=
      rDebug_Filewriter.renderLine w.mDumpCodeLocation CodeLocation Time Level LogId line
    { w with fs := w.fs.append Path.primary WholeMsg }
  | _ => w

/-- `rDebug_Filewriter::write_wrap`; `__FILE__` and `__LINE__` are those of its own body. -/
def rDebug_Filewriter.write_wrap (w : World) (this : Nat) (Location : String)
    (Reason : String) : World :=
  let here : FileLineFunc_t := ⟨some "rDebug.cpp", 232, some Location⟩
  let Now := w.now
  rDebug_Filewriter.write_file_raw w this here Now rMsgType.Notice 0 Reason

/-- `rDebug_Filewriter::open`: a new `QFile` on `fileName`, opened for appending. -/
def rDebug_Filewriter.open (w : World) (this : Nat) (Location : String) (Reason : String) :
    World :=
  let mpLogfile : QFile := ⟨true⟩
  let w := { w with
    fwHeap := Function.update w.fwHeap this { w.fwHeap this with mpLogfile := some mpLogfile },
    fs := w.fs.openAppend Path.primary }
  rDebug_Filewriter.write_wrap w this Location Reason

/-- `rDebug_Filewriter::close`; `mpLogfile->close()` on a null pointer stops the process. -/
def rDebug_Filewriter.close (w : World) (this : Nat) (Location : String) (Reason : String) :
    World :=
  let w := rDebug_Filewriter.write_wrap w this Location Reason
  match (w.fwHeap this).mpLogfile with
  | none => { w with halted := some Halt.nullDeref }
  | some _ =>
    { w with fwHeap := Function.update w.fwHeap this { w.fwHeap this with mpLogfile := none } }

/-- The first loop of `rotate`: `for( ; Index<mMaxBackups ; ++Index )` leaving at the first
slot whose `probe` does not exist.  The loop body runs fewer than `mMaxBackups` times; `fuel`
counts the iterations still allowed. -/
def rDebug_Filewriter.rotate_probe (fs : FS) (mMaxBackups : Int) : Nat → Nat → Nat
  | 0, Index => Index
  | fuel + 1, Index =>
    if (Index : Int) < mMaxBackups then
      if !fs.fileExists (Path.backup Index) then Index
      else rDebug_Filewriter.rotate_probe fs mMaxBackups fuel (Index + 1)
    else Index

/-- The second loop of `rotate`: `for( ; Index>(MinBackupIndex-1) ; --Index )`. -/
def rDebug_Filewriter.rotate_shift (fs : FS) : Nat → FS
  | 0 => fs
  | Index + 1 =>
    let free_file := Path.backup (Index + 1)
    let used_file := if Index + 1 = 1 then Path.primary else Path.backup Index
    rDebug_Filewriter.rotate_shift (fs.rename used_file free_file) Index

/-- `rDebug_Filewriter::rotate` as a function of the directory. -/
def rDebug_Filewriter.rotateFS (fs : FS) (mMaxBackups : Int) : FS :=
  let MinBackupIndex := 1
  let Index := rDebug_Filewriter.rotate_probe fs mMaxBackups mMaxBackups.toNat MinBackupIndex
  rDebug_Filewriter.rotate_shift fs Index

/-- `rDebug_Filewriter::rotate`. -/
def rDebug_Filewriter.rotate (w : World) (this : Nat) : World :=
  { w with fs := rDebug_Filewriter.rotateFS w.fs (w.fwHeap this).mMaxBackups }

/-- Both overloads of `rDebug_Filewriter::oversized` (by file name: `fi.exists()`, by opened
file: `fi.isReadable()`; an existing file is readable here): the file exists and is larger
than `mMaxSize - 128`. -/
def rDebug_Filewriter.oversized (w : World) (this : Nat) : Bool :=
  w.fs.fileExists Path.primary
    && decide ((w.fs.size Path.primary : Int) > (w.fwHeap this).mMaxSize - 128)

/-- `rDebug_Filewriter::rotate_ondemand`; `*mpLogfile` on a null pointer stops the process. -/
def rDebug_Filewriter.rotate_ondemand (w : World) (this : Nat) : World :=
  match (w.fwHeap this).mpLogfile with
  | none => { w with halted := some Halt.nullDeref }
  | some f =>
    if rDebug_Filewriter.oversized w this then
      let isopen := f.isOpen
      if isopen then
        let Who := "Rotator"
        let Reason := "~~~~~~~~~~ logfile rotated ~~~~~~~~~~"
        let w := rDebug_Filewriter.close w this Who Reason
        let w := w.andThen fun w => rDebug_Filewriter.rotate w this
        w.andThen fun w => rDebug_Filewriter.open w this Who Reason
      else
        rDebug_Filewriter.rotate w this
    else w

/-- The condition under which `rDebug_Filewriter::write_file` does not return early. -/
def rDebug_Filewriter.gate (mMaxLevel Level : rMsgType) : Bool :=
  !decide (mMaxLevel.toInt < Level.toInt)

/-- `rDebug_Filewriter::write_file`. -/
def rDebug_Filewriter.write_file (w : World) (this : Nat) (CodeLocation : FileLineFunc_t)
    (Time : QDateTime) (Level : rMsgType) (LogId : Nat) (line : QString) : World :=
  if !rDebug_Filewriter.gate w.fwMaxLevel Level then w
  else
    let w := rDebug_Filewriter.rotate_ondemand w this
    w.andThen fun w =>
      let w := { w with trace := w.trace ++ [Event.file_line CodeLocation Time Level LogId line] }
      rDebug_Filewriter.write_file_raw w this CodeLocation Time Level LogId line

/-- The constructor `rDebug_Filewriter::rDebug_Filewriter(fileName, MaxLevel, MaxBackups,
MaxSize)` run for the object at address `this`. -/
def rDebug_Filewriter.ctor (w : World) (this : Nat) (MaxLevel : rMsgType) (MaxBackups : Int)
    (MaxSize : Int) : World :=
  let obj : rDebug_Filewriter :=
    { mMaxSize := max MaxSize 0x10000, mMaxBackups := MaxBackups, mpLogfile := none }
  let w := { w with fwHeap := Function.update w.fwHeap this obj, fwMaxLevel := MaxLevel }
  if MaxLevel.toInt ≤ rMsgType.Silent.toInt then
    { w with pFilewriter := none }
  else
    let w := { w with pFilewriter := some this }
    let w := if rDebug_Filewriter.oversized w this then rDebug_Filewriter.rotate w this else w
    rDebug_Filewriter.open w this "CTor" "========== logfile opened =========="

/-- The destructor `rDebug_Filewriter::~rDebug_Filewriter()` run for the object at `this`. -/
def rDebug_Filewriter.dtor (w : World) (this : Nat) : World :=
  let w := rDebug_Filewriter.close w this "DTor" "========== logfile closed =========="
  w.andThen fun w => { w with pFilewriter := none }

def rDebug_Filewriter.setMaxLevel (w : World) (MaxLevel : rMsgType) : World :=
  { w with fwMaxLevel := MaxLevel }

def rDebug_Filewriter.setMaxSize (w : World) (this : Nat) (MaxSize : Int) : World :=
  { w with fwHeap := Function.update w.fwHeap this { w.fwHeap this with mMaxSize := MaxSize } }

def rDebug_Filewriter.setMaxBackups (w : World) (this : Nat) (MaxBackups : Int) : World :=
  { w with
    fwHeap := Function.update w.fwHeap this { w.fwHeap this with mMaxBackups := MaxBackups } }

def rDebug_Filewriter.enableCodeLocations (w : World) (enable : Bool) : World :=
  { w with mDumpCodeLocation := enable }

/-! ## to_xDebug -/

/-- The function `to_xDebug`.  `qFatal` prints the message and aborts the process, so the
statements the `Emergency` case would fall through to are never reached. -/
def to_xDebug (w : World) (Level : rMsgType) (msg : QString) : World :=
  match Level with
  | .Emergency =>
    { w with trace := w.trace ++ [Event.console QtStream.qFatal msg], halted := some Halt.fatal }
  | .Alert | .Critical | .Error =>
    { w with trace := w.trace ++ [Event.console QtStream.qCritical msg] }
  | .Warning =>
    { w with trace := w.trace ++ [Event.console QtStream.qWarning msg] }
  | .Notice | .Informational | .Debug =>
    { w with trace := w.trace ++ [Event.console QtStream.qDebug msg] }
  | _ => w

/-! ## rDebugBase -/

/-- The data members of `rDebugBase` (the stream `mMsgStream` writes into `mMsgBuffer`). -/
structure rDebugBase where
  mBase : Int
  mFileLineFunc : FileLineFunc_t
  mLevel : rMsgType
  mFacility : Int
  mTime : QDateTime
  mLogId : Nat
  mMsgBuffer : QString
  mWithLogId : Bool
  deriving DecidableEq, Repr

/-- The constructor `rDebugBase::rDebugBase(file, line, func, Level, LogId)`, with
`SYSLOG_FACILITY` 16 and `SYSLOG_WITH_NUMERIC_8DIGITS_ID` true. -/
def rDebugBase.ctor (w : World) (file : Option String) (line : Int) (func : Option String)
    (Level : rMsgType) (LogId : Nat) : rDebugBase :=
  { mBase := 10
    mFileLineFunc := ⟨file, line, func⟩
    mLevel := Level
    mFacility := 16
    mTime := w.now
    mLogId := LogId
    mMsgBuffer := ""
    mWithLogId := true }

/-- The text `QDebugBackendWriter` builds in `mStringDevice`; `FormatLen` is the default
argument of `getLogIdStr`. -/
def rDebugBase.consoleText (FormatLen : Int) (r : rDebugBase) : QString :=
  if r.mWithLogId then
    rDebugBase.getDateTimeStr r.mTime ++ " [" ++ rDebugBase.getLevelName r.mLevel ++ "] "
      ++ rDebugBase.getLogIdStr r.mLogId FormatLen ++ ", " ++ r.mMsgBuffer
  else
    rDebugBase.getDateTimeStr r.mTime ++ " [" ++ rDebugBase.getLevelName r.mLevel ++ "] "
      ++ r.mMsgBuffer

/-- `rDebugBase::QDebugBackendWriter`. -/
def rDebugBase.QDebugBackendWriter (w : World) (r : rDebugBase) (currLevel : rMsgType) :
    World :=
  if (rDebug_GlobalLevel.get w).toInt < currLevel.toInt then w
  else
    let mStringDevice := rDebugBase.consoleText w.defaultFormatLen r
    to_xDebug w r.mLevel mStringDevice

/-- `rDebugBase::QSignalBackendWriter`. -/
def rDebugBase.QSignalBackendWriter (w : World) (r : rDebugBase) (currLevel : rMsgType) :
    World :=
  if (rDebug_GlobalLevel.get w).toInt < currLevel.toInt then w
  else
    match w.pSignaller with
    | some _ =>
      rDebug_Signaller.signal_line w r.mFileLineFunc r.mTime r.mLevel r.mLogId r.mMsgBuffer
    | none => w

/-- `rDebugBase::QFileBackendWriter`. -/
def rDebugBase.QFileBackendWriter (w : World) (r : rDebugBase) (currLevel : rMsgType) :
    World :=
  if (rDebug_GlobalLevel.get w).toInt < currLevel.toInt then w
  else
    match w.pFilewriter with
    | some p =>
      rDebug_Filewriter.write_file w p r.mFileLineFunc r.mTime r.mLevel r.mLogId r.mMsgBuffer
    | none => w

/-- `rDebugBase::output`. -/
def rDebugBase.output (w : World) (r : rDebugBase) (currLevel : rMsgType) : World :=
  let w := rDebugBase.QSignalBackendWriter w r currLevel
  let w := w.andThen fun w => rDebugBase.QDebugBackendWriter w r currLevel
  w.andThen fun w => rDebugBase.QFileBackendWriter w r currLevel

/-- The destructor `rDebugBase::~rDebugBase()`. -/
def rDebugBase.dtor (w : World) (r : rDebugBase) : World :=
  rDebugBase.output w r r.mLevel

/-- `rDebugBase::writer`.  `msg` is `none` for a null pointer; `vsnprintf msg valist` is the
complete text the two passes over the scratch buffer produce. -/
def rDebugBase.writer {V : Type} (vsnprintf : String → V → String) (w : World)
    (r : rDebugBase) (Level : rMsgType) (LogId : Nat) (withLogId : Bool) (msg : Option String)
    (valist : V) : rDebugBase :=
  let r := { r with
    mWithLogId := withLogId
    mLogId := if LogId ≠ 0 then LogId else w.applicationPid % 2 ^ 64
    mLevel := Level }
  if (rDebug_GlobalLevel.get w).toInt < Level.toInt then r
  else
    match msg with
    | none => r
    | some msg => { r with mMsgBuffer := r.mMsgBuffer ++ vsnprintf msg valist }

/-- `rDebugBase::emergency(uint64_t LogId, const char* msg, ...)`. -/
def rDebugBase.emergency {V : Type} (vsnprintf : String → V → String) (w : World)
    (r : rDebugBase) (LogId : Nat) (msg : Option String) (args : V) : rDebugBase :=
  rDebugBase.writer vsnprintf w r rMsgType.Alert LogId true msg args

/-- `rDebugBase::fatal(uint64_t LogId, const char* msg, ...)`. -/
def rDebugBase.fatal {V : Type} (vsnprintf : String → V → String) (w : World)
    (r : rDebugBase) (LogId : Nat) (msg : Option String) (args : V) : rDebugBase :=
  rDebugBase.writer vsnprintf w r rMsgType.Emergency LogId true msg args

/-- `rDebugBase::emergency(const char* msg, ...)`. -/
def rDebugBase.emergency_noId {V : Type} (vsnprintf : String → V → String) (w : World)
    (r : rDebugBase) (msg : Option String) (args : V) : rDebugBase :=
  rDebugBase.writer vsnprintf w r rMsgType.Alert 0 false msg args

/-- `rDebugBase::fatal(const char* msg, ...)`. -/
def rDebugBase.fatal_noId {V : Type} (vsnprintf : String → V → String) (w : World)
    (r : rDebugBase) (msg : Option String) (args : V) : rDebugBase :=
  rDebugBase.writer vsnprintf w r rMsgType.Emergency 0 false msg args

/-! ## Example states -/

/-- A freshly started process: the thresholds at `SYSLOG_LEVEL_MAX` (Warning), no active
sink, an empty log directory. -/
def World.initial : World :=
  { globalLevel := rMsgType.Warning
    sigMaxLevel := rMsgType.Warning
    pSignaller := none
    fwMaxLevel := rMsgType.Warning
    mDumpCodeLocation := false
    pFilewriter := none
    fwHeap := fun _ => { mMaxSize := 0x10000, mMaxBackups := 0, mpLogfile := none }
    fs := ∅
    applicationPid := 4711
    now := "2019-01-01 00:00:00,000"
    defaultFormatLen := 8
    trace := []
    halted := none }

/-- The initial process after `rDebug_Filewriter( "", Warning, 3, 0x10000 )` was constructed
at address 1. -/
def World.withFilewriter : World :=
  rDebug_Filewriter.ctor World.initial 1 rMsgType.Warning 3 0x10000

/-- The invariant of the active file writer: the object `pFilewriter` points to has a log
file object (`open` ran in its constructor and after each rotation). -/
def World.wf (w : World) : Bool :=
  match w.pFilewriter with
  | none => true
  | some p => ((w.fwHeap p).mpLogfile).isSome

/-- The process of `World.withFilewriter` after `rDebug_Signaller( Warning )` was constructed
at address 2. -/
def World.withBothSinks : World :=
  rDebug_Signaller.ctor World.withFilewriter 2 rMsgType.Warning

/-- The initial process with the directory `fs` and every file writer object holding
`mMaxBackups = MaxBackups`. -/
def World.sampleDir (fs : FS) (MaxBackups : Int) : World :=
  { World.initial with
    fs := fs
    fwHeap := fun _ => { mMaxSize := 0x10000, mMaxBackups := MaxBackups, mpLogfile := none } }

/-- A stream-style record `rDebug(Level)` with the text `msg` in its buffer. -/
def rDebugBase.sample (Level : rMsgType) (msg : QString) : rDebugBase :=
  { rDebugBase.ctor World.initial (some "main.cpp") 10 (some "main") Level 0 with
    mMsgBuffer := msg }

/-! ## Definitions for C2: what each backend writer delivers -/

/-- The stream `to_xDebug` chooses for a severity. -/
def to_xDebug_stream : rMsgType → QtStream
  | .Emergency => QtStream.qFatal
  | .Alert | .Critical | .Error => QtStream.qCritical
  | .Warning => QtStream.qWarning
  | _ => QtStream.qDebug

/-- What `QSignalBackendWriter` adds to the ghost log. -/
def sigPart (w : World) (r : rDebugBase) (currLevel : rMsgType) : List Event :=
  if w.globalLevel.toInt ≥ currLevel.toInt ∧ w.pSignaller.isSome
      ∧ w.sigMaxLevel.toInt ≥ r.mLevel.toInt then
    [Event.sig_logline r.mFileLineFunc r.mTime r.mLevel.toInt r.mLogId r.mMsgBuffer]
  else []

/-- What `QDebugBackendWriter` adds to the ghost log for a record of one of the eight
severities. -/
def conPart (w : World) (r : rDebugBase) (currLevel : rMsgType) : List Event :=
  if w.globalLevel.toInt ≥ currLevel.toInt then
    [Event.console (to_xDebug_stream r.mLevel) (rDebugBase.consoleText w.defaultFormatLen r)]
  else []

/-- What `QFileBackendWriter` adds to the ghost log. -/
def filePart (w : World) (r : rDebugBase) (currLevel : rMsgType) : List Event :=
  if w.globalLevel.toInt ≥ currLevel.toInt ∧ w.pFilewriter.isSome
      ∧ w.fwMaxLevel.toInt ≥ r.mLevel.toInt then
    [Event.file_line r.mFileLineFunc r.mTime r.mLevel r.mLogId r.mMsgBuffer]
  else []

/-! ## Definitions for C3, C4, C5: directories and successive rotations -/

/-- Example directory: a primary log file and no backups. -/
def FS.fresh : FS := AList.singleton Path.primary "log"

/-- Example directory: the primary holds "C", backup 1 holds "B", backup 2 holds "A". -/
def FS.full2 : FS :=
  ((AList.singleton Path.primary "C").insert (Path.backup 1) "B").insert (Path.backup 2) "A"

/-- Successive rotations: `n` times, the primary is re-created if it is absent (as `open`
does) and `rotate` runs with the given `mMaxBackups`. -/
def rotations (mMaxBackups : Int) (fs : FS) : Nat → FS
  | 0 => fs
  | n + 1 =>
    rDebug_Filewriter.rotateFS ((rotations mMaxBackups fs n).openAppend Path.primary)
      mMaxBackups

/-- The backup indices on disk are exactly `1..K`. -/
def FS.backupsExactly (fs : FS) (K : Nat) : Prop :=
  ∀ i : Nat, fs.fileExists (Path.backup i) = true ↔ (1 ≤ i ∧ i ≤ K)

/-- The lookup function of the directory after the shifting loop ran from `n` with every
rename succeeding. -/
def shiftSpec (f : Path → Option String) (n : Nat) : Path → Option String
  | .primary => if n = 0 then f Path.primary else none
  | .backup j =>
    if 1 ≤ j ∧ j ≤ n then (if j = 1 then f Path.primary else f (Path.backup (j - 1)))
    else f (Path.backup j)

/-- The index of a backup path. -/
def Path.index : Path → Nat
  | .primary => 0
  | .backup n => n

/-! ## Definitions for C6: the size of the live file at the append -/

/-- The size of the live file at the moment `write_file` appends the record line, that is
after `rotate_ondemand` has run for this write. -/
def sizeAtAppend (w : World) (this : Nat) : Nat :=
  (rDebug_Filewriter.rotate_ondemand w this).fs.size Path.primary

/-- A line of 70000 characters. -/
def bigLine : QString := String.mk (List.replicate 70000 'x')

/-- A file sink `rDebug_Filewriter( "", All, 1, 0x10000 )` constructed at address 1 in the
initial process, on an empty directory. -/
def World.smallCap : World := rDebug_Filewriter.ctor World.initial 1 rMsgType.All 1 0x10000

/-- `World.smallCap` after `n` calls of `write_file` with an Error record of 70000
characters. -/
def World.afterBigWrites : Nat → World
  | 0 => World.smallCap
  | n + 1 =>
    rDebug_Filewriter.write_file (World.afterBigWrites n) 1 ⟨none, 0, none⟩ "t"
      rMsgType.Error 0 bigLine

/-- The text `write_wrap` appends. -/
def wrapText (w : World) (Location Reason : String) : String :=
  rDebug_Filewriter.renderLine w.mDumpCodeLocation ⟨some "rDebug.cpp", 232, some Location⟩
    w.now rMsgType.Notice 0 Reason

/-! ## Definitions for C8 -/

/-- The statics the dispatch of a record reads. -/
def World.statics (w : World) :
    rMsgType × rMsgType × Option Nat × rMsgType × Option Nat × Int :=
  (w.globalLevel, w.sigMaxLevel, w.pSignaller, w.fwMaxLevel, w.pFilewriter, w.defaultFormatLen)

/-! ## Definitions for C10: reading hexadecimal digits back -/

/-- Whether a character is a hexadecimal digit. -/
def isHexDigit (c : Char) : Bool :=
  ('0' ≤ c && c ≤ '9') || ('a' ≤ c && c ≤ 'f') || ('A' ≤ c && c ≤ 'F')

/-- The value of a hexadecimal digit. -/
def hexDigitValue (c : Char) : Nat :=
  if '0' ≤ c ∧ c ≤ '9' then c.toNat - '0'.toNat
  else if 'a' ≤ c ∧ c ≤ 'f' then c.toNat - 'a'.toNat + 10
  else if 'A' ≤ c ∧ c ≤ 'F' then c.toNat - 'A'.toNat + 10
  else 0

/-- Reading a string of hexadecimal digits as a number, most significant digit first. -/
def parseHex (s : String) : Nat :=
  s.data.foldl (fun acc c => 16 * acc + hexDigitValue c) 0

/-! ## Definitions for C11: stream-style records and the log id a sink receives -/

/-- `rDebugBase::operator<<( const QString & str )`: the text goes through `mMsgStream` into
`mMsgBuffer`; no other member changes. -/
def rDebugBase.shiftLeft_QString (r : rDebugBase) (str : QString) : rDebugBase :=
  { r with mMsgBuffer := r.mMsgBuffer ++ str }

/-- The log id a delivery carries: the `LogId` argument of `sig_logline` and of
`write_file`; the console sink receives text only. -/
def Event.logId? : Event → Option Nat
  | .sig_logline _ _ _ LogId _ => some LogId
  | .file_line _ _ _ LogId _ => some LogId
  | .console _ _ => none

/-- The log ids of the deliveries made between `w` and `w1`. -/
def World.deliveredLogIds (w w1 : World) : List Nat :=
  (w.newEvents w1).filterMap Event.logId?

/-- The stream-style record `rDebug(Error) << "x"`, created in `World.withBothSinks` with
log id 0 (the value a record has when no id is given; the default argument itself is
declared in `rDebug.h`) and never passed through a printf-style entry point. -/
def rDebugBase.streamSample : rDebugBase :=
  (rDebugBase.ctor World.withBothSinks (some "main.cpp") 10 (some "main") rMsgType.Error
    0).shiftLeft_QString "x"

/-! ## Definitions for C13: sequences of mutator calls on a file writer -/

/-- One call of a runtime mutator of `rDebug_Filewriter`. -/
inductive FilewriterCall where
  | setMaxSize (MaxSize : Int)
  | setMaxBackups (MaxBackups : Int)
  | setMaxLevel (MaxLevel : rMsgType)
  | enableCodeLocations (enable : Bool)
  deriving DecidableEq, Repr

/-- Running one mutator call on the file writer at address `this`. -/
def FilewriterCall.run (w : World) (this : Nat) : FilewriterCall → World
  | .setMaxSize MaxSize => rDebug_Filewriter.setMaxSize w this MaxSize
  | .setMaxBackups MaxBackups => rDebug_Filewriter.setMaxBackups w this MaxBackups
  | .setMaxLevel MaxLevel => rDebug_Filewriter.setMaxLevel w MaxLevel
  | .enableCodeLocations enable => rDebug_Filewriter.enableCodeLocations w enable

/-- Running a sequence of mutator calls, first call first. -/
def FilewriterCall.runAll (w : World) (this : Nat) (calls : List FilewriterCall) : World :=
  calls.foldl (fun v c => FilewriterCall.run v this c) w

/-! # Theorems -/

/-! ## Lemmas: the ghost log and the halting flag across the file writer -/

theorem write_file_raw_trace (w : World) (this : Nat) (loc : FileLineFunc_t) (t : QDateTime)
    (L : rMsgType) (id : Nat) (line : QString) :
    (rDebug_Filewriter.write_file_raw w this loc t L id line).trace = w.trace := by
  unfold rDebug_Filewriter.write_file_raw
  split <;> rfl

theorem write_file_raw_halted (w : World) (this : Nat) (loc : FileLineFunc_t) (t : QDateTime)
    (L : rMsgType) (id : Nat) (line : QString) :
    (rDebug_Filewriter.write_file_raw w this loc t L id line).halted = w.halted := by
  unfold rDebug_Filewriter.write_file_raw
  split <;> rfl

theorem write_file_raw_fwHeap (w : World) (this : Nat) (loc : FileLineFunc_t) (t : QDateTime)
    (L : rMsgType) (id : Nat) (line : QString) :
    (rDebug_Filewriter.write_file_raw w this loc t L id line).fwHeap = w.fwHeap := by
  unfold rDebug_Filewriter.write_file_raw
  split <;> rfl

theorem close_trace (w : World) (this : Nat) (a b : String) :
    (rDebug_Filewriter.close w this a b).trace = w.trace := by
  unfold rDebug_Filewriter.close rDebug_Filewriter.write_wrap
  simp only []
  split <;> simp [write_file_raw_trace]

theorem close_halted (w : World) (this : Nat) (a b : String)
    (h : (w.fwHeap this).mpLogfile ≠ none) :
    (rDebug_Filewriter.close w this a b).halted = w.halted := by
  unfold rDebug_Filewriter.close rDebug_Filewriter.write_wrap
  simp only []
  split
  · rename_i h1
    rw [write_file_raw_fwHeap] at h1
    exact absurd h1 h
  · simp [write_file_raw_halted]

theorem open_trace (w : World) (this : Nat) (a b : String) :
    (rDebug_Filewriter.open w this a b).trace = w.trace := by
  unfold rDebug_Filewriter.open rDebug_Filewriter.write_wrap
  simp [write_file_raw_trace]

theorem open_halted (w : World) (this : Nat) (a b : String) :
    (rDebug_Filewriter.open w this a b).halted = w.halted := by
  unfold rDebug_Filewriter.open rDebug_Filewriter.write_wrap
  simp [write_file_raw_halted]

theorem andThen_running (w : World) (f : World → World) (h : w.halted = none) :
    w.andThen f = f w := by
  unfold World.andThen
  rw [h]

theorem andThen_halted (w : World) (f : World → World) (h : w.halted ≠ none) :
    w.andThen f = w := by
  unfold World.andThen
  cases hh : w.halted with
  | none => exact absurd hh h
  | some _ => rfl

theorem rotate_ondemand_trace (w : World) (this : Nat) :
    (rDebug_Filewriter.rotate_ondemand w this).trace = w.trace := by
  unfold rDebug_Filewriter.rotate_ondemand
  cases hf : (w.fwHeap this).mpLogfile with
  | none => rfl
  | some f =>
    simp only []
    split
    · split
      · have hc := close_halted w this "Rotator" "~~~~~~~~~~ logfile rotated ~~~~~~~~~~"
          (by rw [hf]; simp)
        cases hw : w.halted with
        | none =>
          rw [hw] at hc
          rw [andThen_running _ _ hc]
          rw [andThen_running _ _ (by simpa [rDebug_Filewriter.rotate] using hc)]
          rw [open_trace]
          simp [rDebug_Filewriter.rotate, close_trace]
        | some x =>
          rw [hw] at hc
          have h1 := andThen_halted
            (rDebug_Filewriter.close w this "Rotator" "~~~~~~~~~~ logfile rotated ~~~~~~~~~~")
            (fun w => rDebug_Filewriter.rotate w this) (by rw [hc]; simp)
          rw [h1, andThen_halted _ _ (by rw [hc]; simp)]
          exact close_trace _ _ _ _
      · rfl
    · rfl

theorem rotate_ondemand_halted (w : World) (this : Nat)
    (h : (w.fwHeap this).mpLogfile ≠ none) :
    (rDebug_Filewriter.rotate_ondemand w this).halted = w.halted := by
  unfold rDebug_Filewriter.rotate_ondemand
  cases hf : (w.fwHeap this).mpLogfile with
  | none => exact absurd hf h
  | some f =>
    simp only []
    split
    · split
      · have hc := close_halted w this "Rotator" "~~~~~~~~~~ logfile rotated ~~~~~~~~~~" h
        cases hw : w.halted with
        | none =>
          rw [hw] at hc
          rw [andThen_running _ _ hc]
          rw [andThen_running _ _ (by simpa [rDebug_Filewriter.rotate] using hc)]
          rw [open_halted]
          simpa [rDebug_Filewriter.rotate] using hc
        | some x =>
          rw [hw] at hc
          have h1 := andThen_halted
            (rDebug_Filewriter.close w this "Rotator" "~~~~~~~~~~ logfile rotated ~~~~~~~~~~")
            (fun w => rDebug_Filewriter.rotate w this) (by rw [hc]; simp)
          rw [h1, andThen_halted _ _ (by rw [hc]; simp)]
          exact hc
      · rfl
    · rfl

/-- What `write_file` adds to the ghost log: the record, exactly when the gate lets it pass
(for a running process whose file writer has a log file object). -/
theorem write_file_trace (w : World) (this : Nat) (loc : FileLineFunc_t) (t : QDateTime)
    (L : rMsgType) (id : Nat) (line : QString) (hrun : w.halted = none)
    (hfile : (w.fwHeap this).mpLogfile ≠ none) :
    (rDebug_Filewriter.write_file w this loc t L id line).trace
      = w.trace ++ (if rDebug_Filewriter.gate w.fwMaxLevel L then
          [Event.file_line loc t L id line] else []) := by
  unfold rDebug_Filewriter.write_file
  cases hg : rDebug_Filewriter.gate w.fwMaxLevel L with
  | false => simp
  | true =>
    have hh := rotate_ondemand_halted w this hfile
    rw [hrun] at hh
    simp only [Bool.not_true, Bool.false_eq_true, if_false, if_true]
    rw [andThen_running _ _ hh, write_file_raw_trace]
    simp [rotate_ondemand_trace]

theorem write_file_halted (w : World) (this : Nat) (loc : FileLineFunc_t) (t : QDateTime)
    (L : rMsgType) (id : Nat) (line : QString) (hrun : w.halted = none)
    (hfile : (w.fwHeap this).mpLogfile ≠ none) :
    (rDebug_Filewriter.write_file w this loc t L id line).halted = none := by
  unfold rDebug_Filewriter.write_file
  cases hg : rDebug_Filewriter.gate w.fwMaxLevel L with
  | false => simpa using hrun
  | true =>
    have hh := rotate_ondemand_halted w this hfile
    rw [hrun] at hh
    simp only [Bool.not_true, Bool.false_eq_true, if_false]
    rw [andThen_running _ _ hh, write_file_raw_halted]
    exact hh

theorem newEvents_append (w w1 : World) (evs : List Event) (h : w1.trace = w.trace ++ evs) :
    w.newEvents w1 = evs := by
  unfold World.newEvents
  rw [h]
  simp

/-! ## C1: the gates of the two sinks -/

theorem signal_line_trace (w : World) (loc : FileLineFunc_t) (t : QDateTime) (L : rMsgType)
    (id : Nat) (line : QString) :
    (rDebug_Signaller.signal_line w loc t L id line).trace
      = w.trace ++ (if rDebug_Signaller.gate w.sigMaxLevel L then
          [Event.sig_logline loc t L.toInt id line] else []) := by
  unfold rDebug_Signaller.signal_line
  split <;> simp

theorem signaller_gate_iff (T S : rMsgType) :
    rDebug_Signaller.gate T S = true ↔ T.toInt ≥ S.toInt := by
  simp [rDebug_Signaller.gate]

theorem filewriter_gate_iff (T S : rMsgType) :
    rDebug_Filewriter.gate T S = true ↔ T.toInt ≥ S.toInt := by
  simp [rDebug_Filewriter.gate]

/-- C1. For every threshold `T` of the ten enumerators and every record severity `S` of the
eight levels, `rDebug_Signaller::signal_line` emits the record and
`rDebug_Filewriter::write_file` writes it if and only if `T >= S` as integers; with
`T = Silent` neither sink lets anything through and with `T = All` both let every record
through.  (The process is running and the file writer has its log file object.) -/
theorem C1_sink_gate_iff_threshold_ge (w : World) (this : Nat) (T S : rMsgType)
    (loc : FileLineFunc_t) (t : QDateTime) (id : Nat) (line : QString)
    (hS : S.isSeverity = true) (hrun : w.halted = none)
    (hfile : (w.fwHeap this).mpLogfile ≠ none) :
    (Event.sig_logline loc t S.toInt id line
        ∈ World.newEvents { w with sigMaxLevel := T }
            (rDebug_Signaller.signal_line { w with sigMaxLevel := T } loc t S id line)
      ↔ T.toInt ≥ S.toInt)
    ∧ (Event.file_line loc t S id line
        ∈ World.newEvents { w with fwMaxLevel := T }
            (rDebug_Filewriter.write_file { w with fwMaxLevel := T } this loc t S id line)
      ↔ T.toInt ≥ S.toInt)
    ∧ (T = rMsgType.Silent →
        World.newEvents { w with sigMaxLevel := T }
            (rDebug_Signaller.signal_line { w with sigMaxLevel := T } loc t S id line) = []
        ∧ World.newEvents { w with fwMaxLevel := T }
            (rDebug_Filewriter.write_file { w with fwMaxLevel := T } this loc t S id line) = [])
    ∧ (T = rMsgType.All →
        World.newEvents { w with sigMaxLevel := T }
            (rDebug_Signaller.signal_line { w with sigMaxLevel := T } loc t S id line)
          = [Event.sig_logline loc t S.toInt id line]
        ∧ World.newEvents { w with fwMaxLevel := T }
            (rDebug_Filewriter.write_file { w with fwMaxLevel := T } this loc t S id line)
          = [Event.file_line loc t S id line]) := by
  have hs := newEvents_append _ _ _
    (signal_line_trace { w with sigMaxLevel := T } loc t S id line)
  have hf := newEvents_append _ _ _
    (write_file_trace { w with fwMaxLevel := T } this loc t S id line hrun hfile)
  rw [hs, hf]
  simp only []
  refine ⟨?_, ?_, ?_, ?_⟩
  · rw [← signaller_gate_iff]
    cases rDebug_Signaller.gate T S <;> simp
  · rw [← filewriter_gate_iff]
    cases rDebug_Filewriter.gate T S <;> simp
  · rintro rfl
    cases S <;> first | (exact absurd hS (by decide)) | (constructor <;> rfl)
  · rintro rfl
    cases S <;> first | (exact absurd hS (by decide)) | (constructor <;> rfl)

/-- C1 at a concrete input: threshold Warning, an Error record, the file writer of
`World.withFilewriter`. -/
theorem C1_sink_gate_witness :
    (rMsgType.Error.isSeverity = true ∧ World.withFilewriter.halted = none
      ∧ (World.withFilewriter.fwHeap 1).mpLogfile ≠ none)
    ∧ (Event.file_line ⟨none, 0, none⟩ "t" rMsgType.Error 7 "x"
        ∈ World.newEvents { World.withFilewriter with fwMaxLevel := rMsgType.Warning }
            (rDebug_Filewriter.write_file
              { World.withFilewriter with fwMaxLevel := rMsgType.Warning } 1 ⟨none, 0, none⟩
              "t" rMsgType.Error 7 "x")
      ↔ rMsgType.Warning.toInt ≥ rMsgType.Error.toInt) :=
  ⟨⟨by decide, by decide, by decide⟩,
   (C1_sink_gate_iff_threshold_ge World.withFilewriter 1 rMsgType.Warning rMsgType.Error
      ⟨none, 0, none⟩ "t" 7 "x" (by decide) (by decide) (by decide)).2.1⟩

/-! ## C2: dispatch of a record by `output` -/

theorem QSignalBackendWriter_eq (w : World) (r : rDebugBase) (c : rMsgType) :
    rDebugBase.QSignalBackendWriter w r c = { w with trace := w.trace ++ sigPart w r c } := by
  unfold rDebugBase.QSignalBackendWriter sigPart rDebug_GlobalLevel.get
  by_cases hG : w.globalLevel.toInt < c.toInt
  · have hG2 : ¬ (c.toInt ≤ w.globalLevel.toInt) := not_le.mpr hG
    cases w
    simp_all
  · have hG2 : c.toInt ≤ w.globalLevel.toInt := not_lt.mp hG
    cases hp : w.pSignaller with
    | none =>
      cases w
      simp_all
    | some p =>
      simp only [hG, if_false]
      unfold rDebug_Signaller.signal_line
      by_cases hg : rDebug_Signaller.gate w.sigMaxLevel r.mLevel = true
      · have := (signaller_gate_iff _ _).mp hg
        simp [hg, hG2, this, hp]
      · have hn : ¬ (w.sigMaxLevel.toInt ≥ r.mLevel.toInt) :=
          fun h => hg ((signaller_gate_iff _ _).mpr h)
        cases w
        simp_all

theorem QDebugBackendWriter_eq (w : World) (r : rDebugBase) (c : rMsgType)
    (hS : r.mLevel.isSeverity = true) :
    rDebugBase.QDebugBackendWriter w r c
      = { w with
          trace := w.trace ++ conPart w r c
          halted := if w.globalLevel.toInt ≥ c.toInt ∧ r.mLevel = rMsgType.Emergency then
              some Halt.fatal else w.halted } := by
  unfold rDebugBase.QDebugBackendWriter rDebug_GlobalLevel.get
  by_cases hG : w.globalLevel.toInt < c.toInt
  · have hG2 : ¬ (w.globalLevel.toInt ≥ c.toInt) := not_le.mpr hG
    have hc : conPart w r c = [] := if_neg hG2
    rw [hc, if_pos hG, if_neg (fun h => hG2 h.1)]
    cases w
    simp
  · have hG2 : w.globalLevel.toInt ≥ c.toInt := not_lt.mp hG
    have hc : conPart w r c
        = [Event.console (to_xDebug_stream r.mLevel)
            (rDebugBase.consoleText w.defaultFormatLen r)] := if_pos hG2
    rw [hc, if_neg hG]
    cases hL : r.mLevel <;> rw [hL] at hS <;>
      first
        | exact absurd hS (by decide)
        | simp [to_xDebug, to_xDebug_stream, hG2]

theorem wf_logfile (w : World) (p : Nat) (hwf : w.wf = true) (hp : w.pFilewriter = some p) :
    (w.fwHeap p).mpLogfile ≠ none := by
  unfold World.wf at hwf
  rw [hp] at hwf
  intro h0
  simp [h0] at hwf

theorem QFileBackendWriter_trace (w : World) (r : rDebugBase) (c : rMsgType)
    (hrun : w.halted = none) (hwf : w.wf = true) :
    (rDebugBase.QFileBackendWriter w r c).trace = w.trace ++ filePart w r c := by
  unfold rDebugBase.QFileBackendWriter filePart rDebug_GlobalLevel.get
  by_cases hG : w.globalLevel.toInt < c.toInt
  · have hG2 : ¬ (c.toInt ≤ w.globalLevel.toInt) := not_le.mpr hG
    simp [hG, hG2]
  · have hG2 : c.toInt ≤ w.globalLevel.toInt := not_lt.mp hG
    cases hp : w.pFilewriter with
    | none => simp [hG]
    | some p =>
      have hfile := wf_logfile w p hwf hp
      simp only [hG, if_false]
      rw [write_file_trace w p _ _ _ _ _ hrun hfile]
      by_cases hg : rDebug_Filewriter.gate w.fwMaxLevel r.mLevel = true
      · have := (filewriter_gate_iff _ _).mp hg
        simp [hg, hG2, this]
      · have hn : ¬ (w.fwMaxLevel.toInt ≥ r.mLevel.toInt) :=
          fun h => hg ((filewriter_gate_iff _ _).mpr h)
        simp [hg, hn]

/-- The deliveries of one call of `output`, from a running process whose active file writer
has its log file object: the broadcast, then the console, then (unless `qFatal` ended the
process) the file. -/
theorem output_trace (w : World) (r : rDebugBase) (c : rMsgType)
    (hS : r.mLevel.isSeverity = true) (hrun : w.halted = none) (hwf : w.wf = true) :
    (rDebugBase.output w r c).trace
      = w.trace ++ sigPart w r c ++ conPart w r c
          ++ (if w.globalLevel.toInt ≥ c.toInt ∧ r.mLevel = rMsgType.Emergency then []
              else filePart w r c) := by
  have e1 := QSignalBackendWriter_eq w r c
  have e2 := QDebugBackendWriter_eq { w with trace := w.trace ++ sigPart w r c } r c hS
  have s1 : (rDebugBase.QSignalBackendWriter w r c).andThen
        (fun w => rDebugBase.QDebugBackendWriter w r c)
      = rDebugBase.QDebugBackendWriter (rDebugBase.QSignalBackendWriter w r c) r c :=
    andThen_running _ _ (by rw [e1]; exact hrun)
  unfold rDebugBase.output
  simp only []
  rw [s1, e1, e2]
  by_cases hE : w.globalLevel.toInt ≥ c.toInt ∧ r.mLevel = rMsgType.Emergency
  · rw [andThen_halted _ _ (by simp [hE])]
    simp [hE, conPart]
  · rw [andThen_running _ _ (by simpa [hE] using hrun)]
    rw [QFileBackendWriter_trace _ _ _ (by simpa [hE] using hrun) (by simpa [World.wf] using hwf)]
    simp [hE, conPart, filePart, sigPart]

/-- Scenario A: every threshold at Warning, a Debug record reaches no sink. -/
theorem scenarioA_debug_reaches_no_sink :
    World.withBothSinks.newEvents
      (rDebugBase.output World.withBothSinks (rDebugBase.sample rMsgType.Debug "x")
        rMsgType.Debug) = [] := by
  decide

/-- Scenario B: every threshold at Warning, an Error record reaches the broadcast sink, the
console and the file sink, in this order. -/
theorem scenarioB_error_reaches_every_sink :
    World.withBothSinks.newEvents
      (rDebugBase.output World.withBothSinks (rDebugBase.sample rMsgType.Error "x")
        rMsgType.Error)
      = [Event.sig_logline ⟨some "main.cpp", 10, some "main"⟩ "2019-01-01 00:00:00,000" 3 0 "x",
         Event.console QtStream.qCritical "2019-01-01 00:00:00,000 [Err!] 00000000, x",
         Event.file_line ⟨some "main.cpp", 10, some "main"⟩ "2019-01-01 00:00:00,000"
           rMsgType.Error 0 "x"] := by
  decide

/-- What `output` delivers, exactly. For a record of severity `S` (one of the eight levels),
global threshold `G`, and a running process whose active file writer has its log file
object: the broadcast sink receives the record iff it has an active instance and `G >= S`
and its threshold `>= S`; the console sink receives it iff `G >= S`; the file sink receives
it iff it has an active instance and `G >= S` and its threshold `>= S` and `S` is not
Emergency. An Emergency record is never delivered to the file sink. -/
theorem output_dispatch_exact (w : World) (r : rDebugBase)
    (hS : r.mLevel.isSeverity = true) (hrun : w.halted = none) (hwf : w.wf = true) :
    ((w.newEvents (rDebugBase.output w r r.mLevel)).any Event.isSignal = true
      ↔ (w.pSignaller.isSome = true ∧ w.globalLevel.toInt ≥ r.mLevel.toInt
          ∧ w.sigMaxLevel.toInt ≥ r.mLevel.toInt))
    ∧ ((w.newEvents (rDebugBase.output w r r.mLevel)).any Event.isConsole = true
      ↔ w.globalLevel.toInt ≥ r.mLevel.toInt)
    ∧ ((w.newEvents (rDebugBase.output w r r.mLevel)).any Event.isFile = true
      ↔ (w.pFilewriter.isSome = true ∧ w.globalLevel.toInt ≥ r.mLevel.toInt
          ∧ w.fwMaxLevel.toInt ≥ r.mLevel.toInt ∧ r.mLevel ≠ rMsgType.Emergency)) := by
  have ht := output_trace w r r.mLevel hS hrun hwf
  rw [List.append_assoc, List.append_assoc] at ht
  rw [newEvents_append _ _ _ ht]
  refine ⟨?_, ?_, ?_⟩
  · unfold sigPart conPart filePart
    split_ifs <;> simp_all [Event.isSignal]
  · unfold sigPart conPart filePart
    split_ifs <;> simp_all [Event.isSignal, Event.isConsole]
  · unfold sigPart conPart filePart
    split_ifs <;> simp_all [Event.isSignal, Event.isConsole, Event.isFile]

/-- C2 fails on the code for the file sink at severity Emergency. With every threshold at
Warning, an active broadcast sink and an active file writer, the file sink has an active
instance and both `G >= S` and its own threshold `>= S` hold for an Emergency record, yet
`output` delivers the record to the broadcast sink and to the console sink only: `qFatal`
in the console sink ends the process before `QFileBackendWriter` runs, so the file sink
receives nothing and the log file is left as it was. -/
theorem C2_emergency_record_never_reaches_file_sink :
    (World.withBothSinks.pFilewriter.isSome = true
      ∧ World.withBothSinks.globalLevel.toInt
          ≥ (rDebugBase.sample rMsgType.Emergency "x").mLevel.toInt
      ∧ World.withBothSinks.fwMaxLevel.toInt
          ≥ (rDebugBase.sample rMsgType.Emergency "x").mLevel.toInt)
    ∧ World.withBothSinks.newEvents
        (rDebugBase.output World.withBothSinks (rDebugBase.sample rMsgType.Emergency "x")
          (rDebugBase.sample rMsgType.Emergency "x").mLevel)
      = [Event.sig_logline ⟨some "main.cpp", 10, some "main"⟩ "2019-01-01 00:00:00,000" 0 0
           "x",
         Event.console QtStream.qFatal "2019-01-01 00:00:00,000 [Emrg] 00000000, x"]
    ∧ (World.withBothSinks.newEvents
        (rDebugBase.output World.withBothSinks (rDebugBase.sample rMsgType.Emergency "x")
          (rDebugBase.sample rMsgType.Emergency "x").mLevel)).any Event.isFile = false
    ∧ (rDebugBase.output World.withBothSinks (rDebugBase.sample rMsgType.Emergency "x")
          (rDebugBase.sample rMsgType.Emergency "x").mLevel).halted = some Halt.fatal
    ∧ (rDebugBase.output World.withBothSinks (rDebugBase.sample rMsgType.Emergency "x")
          (rDebugBase.sample rMsgType.Emergency "x").mLevel).fs.lookup Path.primary
      = World.withBothSinks.fs.lookup Path.primary := by
  decide

/-! ## C3, C4, C5: rotation of the backup files -/

theorem rename_lookup_ok (fs : FS) (a b p : Path) (c : String) (hab : a ≠ b)
    (ha : fs.lookup a = some c) (hb : fs.fileExists b = false) :
    (fs.rename a b).lookup p
      = if p = b then some c else if p = a then none else fs.lookup p := by
  unfold FS.rename
  rw [ha]
  simp only [hb, Bool.false_eq_true, if_false]
  by_cases h1 : p = b
  · subst h1
    simp [AList.lookup_insert]
  · rw [AList.lookup_insert_ne h1]
    by_cases h2 : p = a
    · subst h2
      simp [h1, AList.lookup_erase]
    · rw [AList.lookup_erase_ne h2]
      simp [h1, h2]

theorem rename_dest_exists (fs : FS) (a b : Path) (hb : fs.fileExists b = true) :
    fs.rename a b = fs := by
  unfold FS.rename
  cases fs.lookup a with
  | none => rfl
  | some c => simp [hb]

theorem fileExists_iff (fs : FS) (p : Path) :
    fs.fileExists p = true ↔ ∃ c, fs.lookup p = some c := by
  unfold FS.fileExists
  rw [Option.isSome_iff_exists]

theorem fileExists_false_iff (fs : FS) (p : Path) :
    fs.fileExists p = false ↔ fs.lookup p = none := by
  unfold FS.fileExists
  cases fs.lookup p <;> simp

/-- The probing loop of `rotate` stops at `min (K+1) m` when the backups are exactly
`1..K`. -/
theorem rotate_probe_exact (fs : FS) (M : Int) (m K : Nat) (hm : M = (m : Int))
    (hinv : fs.backupsExactly K) :
    ∀ (fuel Index : Nat), 1 ≤ Index → Index ≤ K + 1 → Index ≤ m → m ≤ fuel + Index →
      rDebug_Filewriter.rotate_probe fs M fuel Index = min (K + 1) m := by
  intro fuel
  induction fuel with
  | zero =>
    intro Index _ h2 h3 h4
    simp only [rDebug_Filewriter.rotate_probe]
    omega
  | succ fuel ih =>
    intro Index h1 h2 h3 h4
    simp only [rDebug_Filewriter.rotate_probe]
    by_cases hlt : Index < m
    · have hlt2 : (Index : Int) < M := by rw [hm]; exact_mod_cast hlt
      rw [if_pos hlt2]
      by_cases hex : fs.fileExists (Path.backup Index) = true
      · have := (hinv Index).mp hex
        simp only [hex, Bool.not_true, Bool.false_eq_true, if_false]
        exact ih (Index + 1) (by omega) (by omega) (by omega) (by omega)
      · have hnot : ¬ (1 ≤ Index ∧ Index ≤ K) := fun h => hex ((hinv Index).mpr h)
        have hex2 : fs.fileExists (Path.backup Index) = false := by
          cases h : fs.fileExists (Path.backup Index) with
          | true => exact absurd h hex
          | false => rfl
        simp only [hex2, Bool.not_false, if_true]
        omega
    · have hge : ¬ ((Index : Int) < M) := by rw [hm]; exact_mod_cast hlt
      rw [if_neg hge]
      omega

/-- The shifting loop when the slot it starts at is free and everything below is present:
every rename succeeds. -/
theorem rotate_shift_ok :
    ∀ (n : Nat) (fs : FS), (1 ≤ n → fs.fileExists (Path.backup n) = false) →
      (∀ j, 1 ≤ j → j < n → fs.fileExists (Path.backup j) = true) →
      (1 ≤ n → fs.fileExists Path.primary = true) →
      ∀ p, (rDebug_Filewriter.rotate_shift fs n).lookup p = shiftSpec fs.lookup n p := by
  intro n
  induction n with
  | zero =>
    intro fs _ _ _ p
    cases p with
    | primary => simp [rDebug_Filewriter.rotate_shift, shiftSpec]
    | backup j =>
      have : ¬ (1 ≤ j ∧ j ≤ 0) := by omega
      simp only [rDebug_Filewriter.rotate_shift, shiftSpec, if_neg this]
  | succ n ih =>
    intro fs hfree hbelow hprim p
    simp only [rDebug_Filewriter.rotate_shift]
    have hfree1 := hfree (by omega)
    by_cases hn : n = 0
    · subst hn
      obtain ⟨c, hc⟩ := (fileExists_iff fs Path.primary).mp (hprim (by omega))
      simp only [zero_add, if_true]
      have hl := rename_lookup_ok fs Path.primary (Path.backup 1) p c (by simp) hc
        (by simpa using hfree1)
      simp only [rDebug_Filewriter.rotate_shift]
      rw [hl]
      cases p with
      | primary => simp [shiftSpec]
      | backup j =>
        by_cases hj : j = 1
        · subst hj
          simp [shiftSpec, hc]
        · have : ¬ (1 ≤ j ∧ j ≤ 1) := by omega
          simp [shiftSpec, hj, this]
    · have hn1 : 1 ≤ n := by omega
      have hne : ¬ (n + 1 = 1) := by omega
      simp only [hne, if_false]
      obtain ⟨c, hc⟩ := (fileExists_iff fs (Path.backup n)).mp
        (hbelow n hn1 (by omega))
      have hl := fun q => rename_lookup_ok fs (Path.backup n) (Path.backup (n + 1)) q c
        (by simp) hc hfree1
      have hstep := ih (fs.rename (Path.backup n) (Path.backup (n + 1)))
        (fun _ => by
          rw [fileExists_false_iff, hl]
          simp)
        (fun j hj1 hj2 => by
          obtain ⟨d, hd⟩ := (fileExists_iff fs (Path.backup j)).mp (hbelow j hj1 (by omega))
          rw [fileExists_iff, hl]
          have h1 : j ≠ n + 1 := by omega
          have h2 : j ≠ n := by omega
          exact ⟨d, by simp [h1, h2, hd]⟩)
        (fun _ => by
          obtain ⟨d, hd⟩ := (fileExists_iff fs Path.primary).mp (hprim (by omega))
          rw [fileExists_iff, hl]
          exact ⟨d, by simp [hd]⟩)
        p
      rw [hstep]
      cases p with
      | primary => simp [shiftSpec, hn]
      | backup j =>
        simp only [shiftSpec]
        by_cases hjn : 1 ≤ j ∧ j ≤ n
        · have hjn1 : 1 ≤ j ∧ j ≤ n + 1 := by omega
          rw [if_pos hjn, if_pos hjn1]
          by_cases hj1 : j = 1
          · rw [if_pos hj1, if_pos hj1, hl]
            simp
          · rw [if_neg hj1, if_neg hj1, hl]
            have h1 : j - 1 ≠ n + 1 := by omega
            have h2 : j - 1 ≠ n := by omega
            simp [h1, h2]
        · rw [if_neg hjn, hl]
          by_cases hjs : j = n + 1
          · subst hjs
            have : 1 ≤ n + 1 ∧ n + 1 ≤ n + 1 := by omega
            simp [hne, hc]
          · have hjn1 : ¬ (1 ≤ j ∧ j ≤ n + 1) := by omega
            have h2 : j ≠ n := by omega
            rw [if_neg hjn1]
            simp [hjs, h2]

/-- The shifting loop when every slot `1..n` is occupied: every rename fails and the
directory is left as it was. -/
theorem rotate_shift_stuck :
    ∀ (n : Nat) (fs : FS), (∀ j, 1 ≤ j → j ≤ n → fs.fileExists (Path.backup j) = true) →
      rDebug_Filewriter.rotate_shift fs n = fs := by
  intro n
  induction n with
  | zero =>
    intro fs _
    rfl
  | succ n ih =>
    intro fs h
    simp only [rDebug_Filewriter.rotate_shift]
    rw [rename_dest_exists fs _ _ (h (n + 1) (by omega) (by omega))]
    exact ih fs (fun j h1 h2 => h j h1 (by omega))

/-- `rotate` below the cap: with the primary present and backups exactly `1..K`, `K` less
than `mMaxBackups`, the primary moves to slot 1 and every backup moves up by one. -/
theorem rotateFS_below_cap (fs : FS) (M : Int) (K : Nat) (hK : (K : Int) < M)
    (hprim : fs.fileExists Path.primary = true) (hinv : fs.backupsExactly K) :
    ∀ p, (rDebug_Filewriter.rotateFS fs M).lookup p = shiftSpec fs.lookup (K + 1) p := by
  have hm : M = (M.toNat : Int) := by omega
  have hprobe := rotate_probe_exact fs M M.toNat K hm hinv M.toNat 1 (by omega) (by omega)
    (by omega) (by omega)
  have hmin : min (K + 1) M.toNat = K + 1 := by omega
  unfold rDebug_Filewriter.rotateFS
  simp only []
  rw [hprobe, hmin]
  apply rotate_shift_ok
  · intro _
    cases h : fs.fileExists (Path.backup (K + 1)) with
    | false => rfl
    | true =>
      have := (hinv (K + 1)).mp h
      omega
  · intro j h1 h2
    exact (hinv j).mpr ⟨h1, by omega⟩
  · intro _
    exact hprim

/-- `rotate` at the cap: with backups exactly `1..mMaxBackups`, no rename succeeds and the
directory, the primary included, is left as it was. -/
theorem rotateFS_at_cap (fs : FS) (M : Int) (K : Nat) (hM : 1 ≤ M) (hK : (K : Int) = M)
    (hinv : fs.backupsExactly K) :
    rDebug_Filewriter.rotateFS fs M = fs := by
  have hm : M = (M.toNat : Int) := by omega
  have hprobe := rotate_probe_exact fs M M.toNat K hm hinv M.toNat 1 (by omega) (by omega)
    (by omega) (by omega)
  have hmin : min (K + 1) M.toNat = K := by omega
  unfold rDebug_Filewriter.rotateFS
  simp only []
  rw [hprobe, hmin]
  apply rotate_shift_stuck
  intro j h1 h2
  exact (hinv j).mpr ⟨h1, h2⟩

theorem rotateFS_backupsExactly (fs : FS) (M : Int) (K : Nat) (hM : 1 ≤ M)
    (hK : (K : Int) ≤ M) (hprim : fs.fileExists Path.primary = true)
    (hinv : fs.backupsExactly K) :
    (rDebug_Filewriter.rotateFS fs M).backupsExactly (min (K + 1) M.toNat) := by
  by_cases hlt : (K : Int) < M
  · have hmin : min (K + 1) M.toNat = K + 1 := by omega
    rw [hmin]
    intro i
    rw [fileExists_iff, rotateFS_below_cap fs M K hlt hprim hinv]
    simp only [shiftSpec]
    by_cases hi : 1 ≤ i ∧ i ≤ K + 1
    · rw [if_pos hi]
      by_cases h1 : i = 1
      · rw [if_pos h1, ← fileExists_iff]
        simp [hprim, hi]
      · rw [if_neg h1, ← fileExists_iff, hinv (i - 1)]
        constructor
        · intro _
          exact hi
        · intro _
          omega
    · rw [if_neg hi, ← fileExists_iff, hinv i]
      constructor
      · intro h
        omega
      · intro h
        exact absurd h hi
  · have hKM : (K : Int) = M := by omega
    have hmin : min (K + 1) M.toNat = K := by omega
    rw [hmin, rotateFS_at_cap fs M K hM hKM hinv]
    exact hinv

/-- A directory whose backup indices are exactly `1..K` holds `K` backup files. -/
theorem backupCount_of_exactly (fs : FS) (K : Nat) (hinv : fs.backupsExactly K) :
    fs.backupCount = K := by
  have hnd : (fs.backups.map Path.index).Nodup := by
    apply List.Nodup.map_on
    · intro x hx y hy hxy
      simp only [FS.backups, List.mem_filter] at hx hy
      cases x <;> cases y <;> simp_all [Path.isBackup, Path.index]
    · exact (AList.keys_nodup fs).filter _
  have hmem : ∀ n, n ∈ fs.backups.map Path.index ↔ n ∈ Finset.Icc 1 K := by
    intro n
    rw [Finset.mem_Icc, ← hinv n]
    unfold FS.fileExists
    rw [AList.lookup_isSome, AList.mem_keys]
    simp only [FS.backups, List.mem_map, List.mem_filter]
    constructor
    · rintro ⟨p, ⟨hp, hb⟩, rfl⟩
      cases p with
      | primary => simp [Path.isBackup] at hb
      | backup j => simpa [Path.index] using hp
    · intro h
      exact ⟨Path.backup n, ⟨h, rfl⟩, rfl⟩
  have hfin : (fs.backups.map Path.index).toFinset = Finset.Icc 1 K := by
    ext n
    rw [List.mem_toFinset]
    exact hmem n
  have hcard := List.toFinset_card_of_nodup hnd
  rw [hfin, Nat.card_Icc, List.length_map] at hcard
  unfold FS.backupCount
  omega

theorem openAppend_lookup_backup (fs : FS) (i : Nat) :
    (fs.openAppend Path.primary).fileExists (Path.backup i) = fs.fileExists (Path.backup i) := by
  unfold FS.openAppend
  split
  · rfl
  · unfold FS.fileExists
    rw [AList.lookup_insert_ne (by simp)]

theorem openAppend_primary (fs : FS) :
    (fs.openAppend Path.primary).fileExists Path.primary = true := by
  unfold FS.openAppend
  split
  · assumption
  · unfold FS.fileExists
    rw [AList.lookup_insert]
    rfl

theorem rotations_backupsExactly (fs : FS) (M : Int) (hM : 1 ≤ M)
    (hnone : fs.backupsExactly 0) :
    ∀ n, (rotations M fs n).backupsExactly (min n M.toNat) := by
  intro n
  induction n with
  | zero => simpa [rotations] using hnone
  | succ n ih =>
    have hopen : ((rotations M fs n).openAppend Path.primary).backupsExactly (min n M.toNat) := by
      intro i
      rw [openAppend_lookup_backup]
      exact ih i
    have h := rotateFS_backupsExactly _ M (min n M.toNat) hM (by omega)
      (openAppend_primary _) hopen
    have e : min (min n M.toNat + 1) M.toNat = min (n + 1) M.toNat := by omega
    rw [e] at h
    exact h

/-- C3, as claimed, fails: with `maxBackups = 3`, four successive rotations from a directory
with a primary and no backups leave three backup files, more than `maxBackups - 1 = 2`. -/
theorem C3_counterexample_three_backups :
    ¬ ((rotations 3 FS.fresh 4).backupCount ≤ 3 - 1)
    ∧ (rotations 3 FS.fresh 4).fileExists (Path.backup 3) = true := by
  decide

/-- C3, amended. For every `maxBackups >= 1` and every number `n` of successive `rotate()`
calls starting from a directory with a primary file and no backups (the primary re-created
before each call), the number of backup files on disk is at most `maxBackups`: it is
`min n maxBackups`, the backups being exactly the slots `1 .. min n maxBackups`. -/
theorem C3_rotations_backupCount_le_maxBackups (fs : FS) (mMaxBackups : Int) (n : Nat)
    (hM : 1 ≤ mMaxBackups) (hnone : fs.backupsExactly 0) :
    ((rotations mMaxBackups fs n).backupCount : Int) ≤ mMaxBackups
    ∧ (rotations mMaxBackups fs n).backupCount = min n mMaxBackups.toNat
    ∧ (rotations mMaxBackups fs n).backupsExactly (min n mMaxBackups.toNat) := by
  have h := rotations_backupsExactly fs mMaxBackups hM hnone n
  have hc := backupCount_of_exactly _ _ h
  refine ⟨?_, hc, h⟩
  rw [hc]
  omega

theorem fresh_backupsExactly : FS.fresh.backupsExactly 0 := by
  intro i
  simp [FS.fresh, FS.fileExists, AList.lookup, AList.singleton, List.dlookup]
  omega

/-- C3 (amended) at a concrete input: `maxBackups = 3`, four rotations from `FS.fresh`. -/
theorem C3_rotations_witness :
    ((1 : Int) ≤ 3 ∧ FS.fresh.backupsExactly 0)
    ∧ ((rotations 3 FS.fresh 4).backupCount : Int) ≤ 3 :=
  ⟨⟨by decide, fresh_backupsExactly⟩,
   (C3_rotations_backupCount_le_maxBackups FS.fresh 3 4 (by decide) fresh_backupsExactly).1⟩

/-- C4. For every `mMaxBackups >= 1` and every state in which the primary file exists and
the backup indices on disk are exactly `1..K` with `K <= mMaxBackups`, the state after
`rDebug_Filewriter::rotate()` has backup indices exactly `1..K1` for some
`K1 <= mMaxBackups`: contiguous from 1, without gaps, never more than `mMaxBackups` backup
files. -/
theorem C4_rotate_preserves_backup_invariant (w : World) (this : Nat) (K : Nat)
    (hM : 1 ≤ (w.fwHeap this).mMaxBackups)
    (hprim : w.fs.fileExists Path.primary = true)
    (hK : (K : Int) ≤ (w.fwHeap this).mMaxBackups)
    (hinv : w.fs.backupsExactly K) :
    ∃ K1 : Nat, (K1 : Int) ≤ (w.fwHeap this).mMaxBackups
      ∧ (rDebug_Filewriter.rotate w this).fs.backupsExactly K1
      ∧ ((rDebug_Filewriter.rotate w this).fs.backupCount : Int)
          ≤ (w.fwHeap this).mMaxBackups := by
  have h := rotateFS_backupsExactly w.fs (w.fwHeap this).mMaxBackups K hM hK hprim hinv
  refine ⟨min (K + 1) (w.fwHeap this).mMaxBackups.toNat, by omega, h, ?_⟩
  have hc := backupCount_of_exactly _ _ h
  simp only [rDebug_Filewriter.rotate]
  rw [hc]
  omega

/-- C4 at a concrete input: `mMaxBackups = 3`, a primary and no backups. -/
theorem C4_rotate_invariant_witness :
    ((1 : Int) ≤ ((World.sampleDir FS.fresh 3).fwHeap 1).mMaxBackups
      ∧ (World.sampleDir FS.fresh 3).fs.fileExists Path.primary = true
      ∧ ((0 : Nat) : Int) ≤ ((World.sampleDir FS.fresh 3).fwHeap 1).mMaxBackups
      ∧ (World.sampleDir FS.fresh 3).fs.backupsExactly 0)
    ∧ ∃ K1 : Nat, (K1 : Int) ≤ ((World.sampleDir FS.fresh 3).fwHeap 1).mMaxBackups
      ∧ (rDebug_Filewriter.rotate (World.sampleDir FS.fresh 3) 1).fs.backupsExactly K1
      ∧ ((rDebug_Filewriter.rotate (World.sampleDir FS.fresh 3) 1).fs.backupCount : Int)
          ≤ ((World.sampleDir FS.fresh 3).fwHeap 1).mMaxBackups :=
  ⟨⟨by decide, by decide, by decide, fresh_backupsExactly⟩,
   C4_rotate_preserves_backup_invariant (World.sampleDir FS.fresh 3) 1 0 (by decide)
     (by decide) (by decide) fresh_backupsExactly⟩

theorem full2_backupsExactly : FS.full2.backupsExactly 2 := by
  intro i
  rcases i with _ | _ | _ | i
  · decide
  · decide
  · decide
  · have h : (i + 1 + 1 + 1 = 1) = False := by simp
    have h2 : (i + 1 + 1 + 1 = 2) = False := by simp
    simp [FS.full2, FS.fileExists, AList.lookup, AList.singleton, AList.insert, List.kinsert,
      List.kerase, List.dlookup, h, h2]

/-- C5 fails on the code at the cap. With `mMaxBackups = 2`, the primary holding "C" and the
backups exactly slots 1 and 2 (holding "B" and "A"), `rotate()` renames nothing: every
destination exists.  Afterwards the primary still exists with "C", slot 1 still holds "B"
and slot 2 still holds "A", where the claim has slot 1 holding "C", slot 2 holding "B" and
no primary. -/
theorem C5_rotate_at_cap_moves_nothing :
    ((World.sampleDir FS.full2 2).fs.fileExists Path.primary = true
      ∧ (World.sampleDir FS.full2 2).fs.backupsExactly 2
      ∧ ((World.sampleDir FS.full2 2).fwHeap 1).mMaxBackups = 2)
    ∧ (rDebug_Filewriter.rotate (World.sampleDir FS.full2 2) 1).fs.lookup Path.primary
        = some "C"
    ∧ (rDebug_Filewriter.rotate (World.sampleDir FS.full2 2) 1).fs.lookup (Path.backup 1)
        = some "B"
    ∧ (rDebug_Filewriter.rotate (World.sampleDir FS.full2 2) 1).fs.lookup (Path.backup 2)
        = some "A" :=
  ⟨⟨by decide, full2_backupsExactly, by decide⟩, by decide, by decide, by decide⟩

/-- Below the cap `rotate()` does what C5 says: with the primary present and the backups
exactly `1..K`, `K < mMaxBackups`, afterwards slot 1 holds the former content of the
primary, the primary path is gone, and slot `i+1` holds the former content of slot `i` for
every `1 <= i <= K`. -/
theorem rotate_below_cap_shifts (w : World) (this : Nat) (K : Nat)
    (hK : (K : Int) < (w.fwHeap this).mMaxBackups)
    (hprim : w.fs.fileExists Path.primary = true) (hinv : w.fs.backupsExactly K) :
    (rDebug_Filewriter.rotate w this).fs.lookup (Path.backup 1) = w.fs.lookup Path.primary
    ∧ (rDebug_Filewriter.rotate w this).fs.lookup Path.primary = none
    ∧ ∀ i, 1 ≤ i → i ≤ K →
        (rDebug_Filewriter.rotate w this).fs.lookup (Path.backup (i + 1))
          = w.fs.lookup (Path.backup i) := by
  have h := rotateFS_below_cap w.fs _ K hK hprim hinv
  simp only [rDebug_Filewriter.rotate]
  refine ⟨?_, ?_, ?_⟩
  · rw [h]
    simp [shiftSpec]
  · rw [h]
    simp [shiftSpec]
  · intro i h1 h2
    rw [h]
    have h3 : 1 ≤ i + 1 ∧ i + 1 ≤ K + 1 := by omega
    have h4 : ¬ (i + 1 = 1) := by omega
    simp only [shiftSpec, if_pos h3, if_neg h4]
    simp

/-! ## C6: the size of the live file when a record line is appended -/

theorem append_backup (fs : FS) (t : String) (i : Nat) :
    (fs.append Path.primary t).fileExists (Path.backup i) = fs.fileExists (Path.backup i) := by
  unfold FS.append FS.fileExists
  rw [AList.lookup_insert_ne (by simp)]

theorem append_primary (fs : FS) (t : String) :
    (fs.append Path.primary t).fileExists Path.primary = true := by
  unfold FS.append FS.fileExists
  rw [AList.lookup_insert]
  rfl

theorem append_size (fs : FS) (t : String) :
    (fs.append Path.primary t).size Path.primary = fs.size Path.primary + t.length := by
  unfold FS.append FS.size
  rw [AList.lookup_insert]
  simp [String.length_append]

theorem openAppend_size (fs : FS) :
    (fs.openAppend Path.primary).size Path.primary = fs.size Path.primary := by
  unfold FS.openAppend
  split
  · rfl
  · rename_i h
    unfold FS.size
    rw [AList.lookup_insert]
    have h2 : fs.lookup Path.primary = none := by
      rw [← fileExists_false_iff]
      cases hh : fs.fileExists Path.primary with
      | true => exact absurd hh h
      | false => rfl
    rw [h2]
    rfl

theorem append_backupsExactly (fs : FS) (t : String) (K : Nat) (h : fs.backupsExactly K) :
    (fs.append Path.primary t).backupsExactly K := by
  intro i
  rw [append_backup]
  exact h i

theorem openAppend_backupsExactly (fs : FS) (K : Nat) (h : fs.backupsExactly K) :
    (fs.openAppend Path.primary).backupsExactly K := by
  intro i
  rw [openAppend_lookup_backup]
  exact h i

theorem renderLine_length (d : Bool) (loc : FileLineFunc_t) (t : QDateTime) (L : rMsgType)
    (id : Nat) (line : QString) :
    line.length ≤ (rDebug_Filewriter.renderLine d loc t L id line).length := by
  unfold rDebug_Filewriter.renderLine
  simp only [String.length_append]
  omega

theorem write_file_raw_open (w : World) (this : Nat) (loc : FileLineFunc_t) (t : QDateTime)
    (L : rMsgType) (id : Nat) (line : QString)
    (h : (w.fwHeap this).mpLogfile = some ⟨true⟩) :
    rDebug_Filewriter.write_file_raw w this loc t L id line
      = { w with fs := (w.fs.append Path.primary
            (rDebug_Filewriter.renderLine w.mDumpCodeLocation loc t L id line)) } := by
  unfold rDebug_Filewriter.write_file_raw
  rw [h]

/-- `rotate_ondemand` on a file that is not oversized does nothing. -/
theorem rotate_ondemand_small (w : World) (this : Nat) (f : QFile)
    (hf : (w.fwHeap this).mpLogfile = some f)
    (hsmall : rDebug_Filewriter.oversized w this = false) :
    rDebug_Filewriter.rotate_ondemand w this = w := by
  unfold rDebug_Filewriter.rotate_ondemand
  rw [hf]
  simp [hsmall]

/-- `rotate_ondemand` on an oversized open file: the directory after the closing line,
`rotate()`, the re-opening and the opening line; the object is as before. -/
theorem rotate_ondemand_big (w : World) (this : Nat)
    (hf : (w.fwHeap this).mpLogfile = some ⟨true⟩) (hrun : w.halted = none)
    (hbig : rDebug_Filewriter.oversized w this = true) :
    (rDebug_Filewriter.rotate_ondemand w this).fs
        = ((rDebug_Filewriter.rotateFS
              (w.fs.append Path.primary
                (wrapText w "Rotator" "~~~~~~~~~~ logfile rotated ~~~~~~~~~~"))
              (w.fwHeap this).mMaxBackups).openAppend Path.primary).append Path.primary
            (wrapText w "Rotator" "~~~~~~~~~~ logfile rotated ~~~~~~~~~~")
    ∧ (rDebug_Filewriter.rotate_ondemand w this).fwHeap this = w.fwHeap this
    ∧ (rDebug_Filewriter.rotate_ondemand w this).halted = none
    ∧ (rDebug_Filewriter.rotate_ondemand w this).fwMaxLevel = w.fwMaxLevel
    ∧ (rDebug_Filewriter.rotate_ondemand w this).mDumpCodeLocation = w.mDumpCodeLocation := by
  have hobj : w.fwHeap this
      = { mMaxSize := (w.fwHeap this).mMaxSize, mMaxBackups := (w.fwHeap this).mMaxBackups,
          mpLogfile := some ⟨true⟩ } := by
    cases h : w.fwHeap this with
    | mk a b c =>
      rw [h] at hf
      simp only at hf
      rw [hf]
  unfold rDebug_Filewriter.rotate_ondemand
  rw [hf]
  simp only [hbig, if_true]
  unfold rDebug_Filewriter.close rDebug_Filewriter.write_wrap
  simp only []
  rw [write_file_raw_open w this _ _ _ _ _ hf]
  simp only [hf, World.andThen, hrun, rDebug_Filewriter.rotate]
  unfold rDebug_Filewriter.open rDebug_Filewriter.write_wrap
  simp only []
  rw [write_file_raw_open _ this _ _ _ _ _ (by simp)]
  refine ⟨?_, ?_, ?_, ?_, ?_⟩
  · simp [wrapText]
  · simp only [Function.update_idem, Function.update_same]
    exact hobj.symm
  · simp [hrun]
  · rfl
  · rfl

theorem write_file_raw_fs_backup (w : World) (this : Nat) (loc : FileLineFunc_t)
    (t : QDateTime) (L : rMsgType) (id : Nat) (line : QString) (i : Nat) :
    (rDebug_Filewriter.write_file_raw w this loc t L id line).fs.fileExists (Path.backup i)
      = w.fs.fileExists (Path.backup i) := by
  unfold rDebug_Filewriter.write_file_raw
  split
  · exact append_backup _ _ _
  · rfl

theorem oversized_cases (b : Bool) : b = true ∨ b = false := by
  cases b <;> simp

theorem rotate_ondemand_open (w : World) (this : Nat)
    (hf : (w.fwHeap this).mpLogfile = some ⟨true⟩) (hrun : w.halted = none) :
    (rDebug_Filewriter.rotate_ondemand w this).fwHeap this = w.fwHeap this
    ∧ (rDebug_Filewriter.rotate_ondemand w this).halted = none
    ∧ (rDebug_Filewriter.rotate_ondemand w this).fwMaxLevel = w.fwMaxLevel
    ∧ (rDebug_Filewriter.rotate_ondemand w this).mDumpCodeLocation = w.mDumpCodeLocation := by
  rcases oversized_cases (rDebug_Filewriter.oversized w this) with h | h
  · exact (rotate_ondemand_big w this hf hrun h).2
  · rw [rotate_ondemand_small w this _ hf h]
    exact ⟨rfl, hrun, rfl, rfl⟩

/-- A passing `write_file` on an open file sink: the record line is appended to the live
file as `rotate_ondemand` left it. -/
theorem write_file_pass (w : World) (this : Nat) (loc : FileLineFunc_t) (t : QDateTime)
    (L : rMsgType) (id : Nat) (line : QString)
    (hf : (w.fwHeap this).mpLogfile = some ⟨true⟩) (hrun : w.halted = none)
    (hg : rDebug_Filewriter.gate w.fwMaxLevel L = true) :
    (rDebug_Filewriter.write_file w this loc t L id line).fs
        = (rDebug_Filewriter.rotate_ondemand w this).fs.append Path.primary
            (rDebug_Filewriter.renderLine w.mDumpCodeLocation loc t L id line)
    ∧ (rDebug_Filewriter.write_file w this loc t L id line).fwHeap this = w.fwHeap this
    ∧ (rDebug_Filewriter.write_file w this loc t L id line).halted = none
    ∧ (rDebug_Filewriter.write_file w this loc t L id line).fwMaxLevel = w.fwMaxLevel := by
  obtain ⟨h1, h2, h3, h4⟩ := rotate_ondemand_open w this hf hrun
  unfold rDebug_Filewriter.write_file
  simp only [hg, Bool.not_true, Bool.false_eq_true, if_false]
  rw [andThen_running _ _ h2]
  rw [write_file_raw_open _ this _ _ _ _ _ (by simpa [h1] using hf)]
  simp [h1, h2, h3, h4]

/-- At the cap the live file is never replaced: with `mMaxBackups >= 1` backups already on
disk in slots `1..mMaxBackups`, `rotate_ondemand` leaves the live file at least as large as
it was, however large that is. -/
theorem rotate_ondemand_at_cap_size (w : World) (this : Nat)
    (hf : (w.fwHeap this).mpLogfile = some ⟨true⟩) (hrun : w.halted = none)
    (hM : 1 ≤ (w.fwHeap this).mMaxBackups)
    (hinv : w.fs.backupsExactly (w.fwHeap this).mMaxBackups.toNat) :
    w.fs.size Path.primary ≤ sizeAtAppend w this
    ∧ (rDebug_Filewriter.rotate_ondemand w this).fs.backupsExactly
        (w.fwHeap this).mMaxBackups.toNat := by
  unfold sizeAtAppend
  rcases oversized_cases (rDebug_Filewriter.oversized w this) with h | h
  · rw [(rotate_ondemand_big w this hf hrun h).1]
    rw [rotateFS_at_cap _ _ (w.fwHeap this).mMaxBackups.toNat hM (by omega)
      (append_backupsExactly _ _ _ hinv)]
    constructor
    · rw [append_size, openAppend_size, append_size]
      omega
    · exact append_backupsExactly _ _ _
        (openAppend_backupsExactly _ _ (append_backupsExactly _ _ _ hinv))
  · rw [rotate_ondemand_small w this _ hf h]
    exact ⟨le_refl _, hinv⟩

theorem bigLine_length : bigLine.length = 70000 := by
  show (List.replicate 70000 'x').length = 70000
  exact List.length_replicate 70000 'x'

theorem smallCap_backupsExactly : World.smallCap.fs.backupsExactly 0 := by
  intro i
  have h : World.smallCap.fs.fileExists (Path.backup i) = false := by
    unfold World.smallCap rDebug_Filewriter.ctor
    simp only []
    rw [if_neg (by decide)]
    unfold rDebug_Filewriter.open rDebug_Filewriter.write_wrap
    simp only []
    rw [write_file_raw_fs_backup]
    split
    · simp only [rDebug_Filewriter.rotate]
      rw [openAppend_lookup_backup]
      rfl
    · rw [openAppend_lookup_backup]
      rfl
  rw [h]
  simp
  omega

theorem afterBigWrites_good : ∀ n,
    (World.afterBigWrites n).halted = none
    ∧ (World.afterBigWrites n).fwHeap 1
        = { mMaxSize := 0x10000, mMaxBackups := 1, mpLogfile := some ⟨true⟩ }
    ∧ (World.afterBigWrites n).fwMaxLevel = rMsgType.All := by
  intro n
  induction n with
  | zero => exact ⟨by decide, by decide, by decide⟩
  | succ n ih =>
    obtain ⟨h1, h2, h3⟩ := ih
    have hf : ((World.afterBigWrites n).fwHeap 1).mpLogfile = some ⟨true⟩ := by rw [h2]
    have hg : rDebug_Filewriter.gate (World.afterBigWrites n).fwMaxLevel rMsgType.Error
        = true := by
      rw [h3]
      decide
    obtain ⟨_, k2, k3, k4⟩ := write_file_pass (World.afterBigWrites n) 1 ⟨none, 0, none⟩ "t"
      rMsgType.Error 0 bigLine hf h1 hg
    simp only [World.afterBigWrites]
    exact ⟨k3, by rw [k2, h2], by rw [k4, h3]⟩

theorem afterBigWrites_fs (n : Nat) :
    (World.afterBigWrites (n + 1)).fs
      = (rDebug_Filewriter.rotate_ondemand (World.afterBigWrites n) 1).fs.append Path.primary
          (rDebug_Filewriter.renderLine (World.afterBigWrites n).mDumpCodeLocation
            ⟨none, 0, none⟩ "t" rMsgType.Error 0 bigLine) := by
  obtain ⟨h1, h2, h3⟩ := afterBigWrites_good n
  have hf : ((World.afterBigWrites n).fwHeap 1).mpLogfile = some ⟨true⟩ := by rw [h2]
  have hg : rDebug_Filewriter.gate (World.afterBigWrites n).fwMaxLevel rMsgType.Error
      = true := by
    rw [h3]
    decide
  exact (write_file_pass (World.afterBigWrites n) 1 ⟨none, 0, none⟩ "t"
    rMsgType.Error 0 bigLine hf h1 hg).1

theorem afterBigWrites_size (n : Nat) :
    70000 ≤ (World.afterBigWrites (n + 1)).fs.size Path.primary := by
  rw [afterBigWrites_fs, append_size]
  have h := renderLine_length (World.afterBigWrites n).mDumpCodeLocation ⟨none, 0, none⟩ "t"
    rMsgType.Error 0 bigLine
  rw [bigLine_length] at h
  omega

theorem afterBigWrites_oversized (n : Nat) :
    rDebug_Filewriter.oversized (World.afterBigWrites (n + 1)) 1 = true := by
  have hs := afterBigWrites_size n
  have hp : (World.afterBigWrites (n + 1)).fs.fileExists Path.primary = true := by
    rw [afterBigWrites_fs]
    exact append_primary _ _
  obtain ⟨_, h2, _⟩ := afterBigWrites_good (n + 1)
  unfold rDebug_Filewriter.oversized
  rw [hp, h2]
  simp only [Bool.true_and, decide_eq_true_eq]
  omega

theorem afterBigWrites_one_backups : (World.afterBigWrites 1).fs.backupsExactly 0 := by
  rw [afterBigWrites_fs]
  apply append_backupsExactly
  have h : rDebug_Filewriter.rotate_ondemand (World.afterBigWrites 0) 1
      = World.afterBigWrites 0 := by
    apply rotate_ondemand_small _ _ ⟨true⟩
    · decide
    · decide
  rw [h]
  exact smallCap_backupsExactly

theorem afterBigWrites_two_backups : (World.afterBigWrites 2).fs.backupsExactly 1 := by
  obtain ⟨h1, h2, _⟩ := afterBigWrites_good 1
  have hf : ((World.afterBigWrites 1).fwHeap 1).mpLogfile = some ⟨true⟩ := by rw [h2]
  rw [afterBigWrites_fs, (rotate_ondemand_big _ 1 hf h1 (afterBigWrites_oversized 0)).1]
  apply append_backupsExactly
  apply append_backupsExactly
  apply openAppend_backupsExactly
  rw [h2]
  have h := rotateFS_backupsExactly
    ((World.afterBigWrites 1).fs.append Path.primary
      (wrapText (World.afterBigWrites 1) "Rotator" "~~~~~~~~~~ logfile rotated ~~~~~~~~~~"))
    1 0 (by decide) (by decide) (append_primary _ _)
    (append_backupsExactly _ _ _ afterBigWrites_one_backups)
  exact h

/-- C6 fails on the code. A file sink constructed on an empty directory with
`MaxBackups = 1` and `MaxSize = 0x10000` is open and lets Error records pass; after two
`write_file` calls with a line of 70000 characters the one backup slot is occupied, so on the
third call `rotate()` cannot move the live file away, and the record line is appended to a
live file that is larger than `mMaxSize - 128`. -/
theorem C6_third_write_appends_above_bound :
    ((World.afterBigWrites 2).fwHeap 1).mMaxSize = 65536
    ∧ ((World.afterBigWrites 2).fwHeap 1).mpLogfile = some ⟨true⟩
    ∧ rDebug_Filewriter.gate (World.afterBigWrites 2).fwMaxLevel rMsgType.Error = true
    ∧ (sizeAtAppend (World.afterBigWrites 2) 1 : Int)
        > ((World.afterBigWrites 2).fwHeap 1).mMaxSize - 128 := by
  obtain ⟨h1, h2, h3⟩ := afterBigWrites_good 2
  have hf : ((World.afterBigWrites 2).fwHeap 1).mpLogfile = some ⟨true⟩ := by rw [h2]
  have hcap := (rotate_ondemand_at_cap_size (World.afterBigWrites 2) 1 hf h1
    (by rw [h2]) (by rw [h2]; exact afterBigWrites_two_backups)).1
  have hs : 70000 ≤ (World.afterBigWrites 2).fs.size Path.primary := afterBigWrites_size 1
  refine ⟨by rw [h2], hf, by rw [h3]; decide, ?_⟩
  rw [h2]
  simp only []
  omega

/-! ## C7: the active-sink slots across construction and destruction -/

/-- C7, as claimed, fails for both classes: after instance 1 and then instance 2 were
constructed (threshold Warning), the slot points at instance 2; destroying the superseded
instance 1 leaves the slot empty, not pointing at instance 2. -/
theorem C7_counterexample_superseded_dtor_clears_slot :
    ((rDebug_Signaller.ctor (rDebug_Signaller.ctor World.initial 1 rMsgType.Warning) 2
        rMsgType.Warning).pSignaller = some 2
      ∧ (rDebug_Signaller.dtor
          (rDebug_Signaller.ctor (rDebug_Signaller.ctor World.initial 1 rMsgType.Warning) 2
            rMsgType.Warning) 1).pSignaller ≠ some 2)
    ∧ ((rDebug_Filewriter.ctor (rDebug_Filewriter.ctor World.initial 1 rMsgType.Warning 3 0)
          2 rMsgType.Warning 3 0).pFilewriter = some 2
      ∧ (rDebug_Filewriter.dtor
          (rDebug_Filewriter.ctor (rDebug_Filewriter.ctor World.initial 1 rMsgType.Warning 3 0)
            2 rMsgType.Warning 3 0) 1).pFilewriter ≠ some 2) := by
  decide

/-- The destructor of a file writer that holds its log file object, run in a running
process, leaves the slot null and the process running. -/
theorem filewriter_dtor_slot (w : World) (this : Nat) (hrun : w.halted = none)
    (hfile : (w.fwHeap this).mpLogfile ≠ none) :
    (rDebug_Filewriter.dtor w this).pFilewriter = none
    ∧ (rDebug_Filewriter.dtor w this).halted = none := by
  have hc : (rDebug_Filewriter.close w this "DTor"
      "========== logfile closed ==========").halted = none := by
    rw [close_halted _ _ _ _ hfile]
    exact hrun
  unfold rDebug_Filewriter.dtor
  simp only []
  rw [andThen_running _ _ hc]
  exact ⟨rfl, hc⟩

/-- C7, amended. For both `rDebug_Signaller` and `rDebug_Filewriter`, destroying an instance
clears the active slot whichever instance is in it: after the destructor the slot is null,
also when the destroyed instance had been superseded.  (For `rDebug_Filewriter` the process
is running and the destroyed instance holds its log file object, as every instance
constructed with a threshold above Silent does.) -/
theorem C7_dtor_always_clears_slot (w : World) (this : Nat) (hrun : w.halted = none)
    (hfile : (w.fwHeap this).mpLogfile ≠ none) :
    (rDebug_Signaller.dtor w this).pSignaller = none
    ∧ (rDebug_Filewriter.dtor w this).pFilewriter = none
    ∧ (rDebug_Filewriter.dtor w this).halted = none :=
  ⟨rfl, filewriter_dtor_slot w this hrun hfile⟩

/-- C7 (amended) at a concrete input: the superseded file writer at address 1 is destroyed
after a second one was constructed at address 2. -/
theorem C7_dtor_witness :
    ((rDebug_Filewriter.ctor World.withFilewriter 2 rMsgType.Warning 3 0).halted = none
      ∧ ((rDebug_Filewriter.ctor World.withFilewriter 2 rMsgType.Warning 3 0).fwHeap
          1).mpLogfile ≠ none)
    ∧ (rDebug_Filewriter.dtor
        (rDebug_Filewriter.ctor World.withFilewriter 2 rMsgType.Warning 3 0) 1).pFilewriter
        = none :=
  ⟨⟨by decide, by decide⟩,
   (C7_dtor_always_clears_slot
      (rDebug_Filewriter.ctor World.withFilewriter 2 rMsgType.Warning 3 0) 1
      (by decide) (by decide)).2.1⟩

/-! ## C9: the severities of `emergency` and `fatal` -/

/-- C9, as claimed, fails: `emergency` sets the severity Alert (1), not Emergency (0), in
both overloads. -/
theorem C9_counterexample_emergency_is_alert :
    (rDebugBase.emergency (fun (s : String) (_ : Unit) => s) World.initial
        (rDebugBase.sample rMsgType.Debug "") 1 (some "boom") ()).mLevel ≠ rMsgType.Emergency
    ∧ (rDebugBase.emergency_noId (fun (s : String) (_ : Unit) => s) World.initial
        (rDebugBase.sample rMsgType.Debug "") (some "boom") ()).mLevel ≠ rMsgType.Emergency := by
  decide

/-- C9, amended. For every logId and every format template, `emergency` sets the record's
severity to Alert (ordinal 1) and `fatal` sets it to Emergency (ordinal 0), in the logId and
in the no-logId overloads alike; the two entry points do not set the same severity. -/
theorem C9_emergency_alert_fatal_emergency {V : Type} (vsnprintf : String → V → String)
    (w : World) (r : rDebugBase) (LogId : Nat) (msg : Option String) (args : V) :
    (rDebugBase.emergency vsnprintf w r LogId msg args).mLevel = rMsgType.Alert
    ∧ (rDebugBase.fatal vsnprintf w r LogId msg args).mLevel = rMsgType.Emergency
    ∧ (rDebugBase.emergency_noId vsnprintf w r msg args).mLevel = rMsgType.Alert
    ∧ (rDebugBase.fatal_noId vsnprintf w r msg args).mLevel = rMsgType.Emergency
    ∧ rMsgType.Alert.toInt = 1 ∧ rMsgType.Emergency.toInt = 0 := by
  unfold rDebugBase.emergency rDebugBase.fatal rDebugBase.emergency_noId rDebugBase.fatal_noId
    rDebugBase.writer
  refine ⟨?_, ?_, ?_, ?_, rfl, rfl⟩ <;>
  · simp only []
    split
    · rfl
    · cases msg <;> rfl

/-! ## C8: calling `output` twice -/

theorem andThen_statics (w : World) (f : World → World)
    (h : ∀ v, (f v).statics = v.statics) : (w.andThen f).statics = w.statics := by
  unfold World.andThen
  split
  · exact h w
  · rfl

theorem write_file_raw_statics (w : World) (this : Nat) (loc : FileLineFunc_t)
    (t : QDateTime) (L : rMsgType) (id : Nat) (line : QString) :
    (rDebug_Filewriter.write_file_raw w this loc t L id line).statics = w.statics := by
  unfold rDebug_Filewriter.write_file_raw
  split <;> rfl

theorem close_statics (w : World) (this : Nat) (a b : String) :
    (rDebug_Filewriter.close w this a b).statics = w.statics := by
  unfold rDebug_Filewriter.close rDebug_Filewriter.write_wrap
  simp only []
  split
  · exact write_file_raw_statics _ _ _ _ _ _ _
  · exact write_file_raw_statics _ _ _ _ _ _ _

theorem open_statics (w : World) (this : Nat) (a b : String) :
    (rDebug_Filewriter.open w this a b).statics = w.statics := by
  unfold rDebug_Filewriter.open rDebug_Filewriter.write_wrap
  simp only []
  rw [write_file_raw_statics]
  rfl

theorem rotate_ondemand_statics (w : World) (this : Nat) :
    (rDebug_Filewriter.rotate_ondemand w this).statics = w.statics := by
  unfold rDebug_Filewriter.rotate_ondemand
  cases (w.fwHeap this).mpLogfile with
  | none => rfl
  | some f =>
    simp only []
    split
    · split
      · rw [andThen_statics _ _ (fun v => open_statics v this _ _)]
        rw [andThen_statics _ (fun v => rDebug_Filewriter.rotate v this) (fun v => rfl)]
        exact close_statics _ _ _ _
      · rfl
    · rfl

theorem write_file_statics (w : World) (this : Nat) (loc : FileLineFunc_t)
    (t : QDateTime) (L : rMsgType) (id : Nat) (line : QString) :
    (rDebug_Filewriter.write_file w this loc t L id line).statics = w.statics := by
  unfold rDebug_Filewriter.write_file
  split
  · rfl
  · rw [andThen_statics _ _ (fun v => by rw [write_file_raw_statics]; rfl)]
    exact rotate_ondemand_statics _ _

theorem QFileBackendWriter_statics (w : World) (r : rDebugBase) (c : rMsgType) :
    (rDebugBase.QFileBackendWriter w r c).statics = w.statics := by
  unfold rDebugBase.QFileBackendWriter
  split
  · rfl
  · split
    · exact write_file_statics _ _ _ _ _ _ _
    · rfl

theorem output_statics (w : World) (r : rDebugBase) (c : rMsgType)
    (hS : r.mLevel.isSeverity = true) :
    (rDebugBase.output w r c).statics = w.statics := by
  unfold rDebugBase.output
  simp only []
  rw [andThen_statics _ _ (fun v => QFileBackendWriter_statics v r c)]
  rw [andThen_statics _ _ (fun v => by rw [QDebugBackendWriter_eq v r c hS]; rfl)]
  rw [QSignalBackendWriter_eq]
  rfl

theorem parts_of_statics (w v : World) (r : rDebugBase) (c : rMsgType)
    (h : v.statics = w.statics) :
    sigPart v r c = sigPart w r c ∧ conPart v r c = conPart w r c
    ∧ filePart v r c = filePart w r c := by
  simp only [World.statics, Prod.mk.injEq] at h
  obtain ⟨h1, h2, h3, h4, h5, h6⟩ := h
  unfold sigPart conPart filePart
  rw [h1, h2, h3, h4, h5, h6]
  exact ⟨rfl, rfl, rfl⟩

theorem rotate_ondemand_logfile (w : World) (this : Nat) (hrun : w.halted = none)
    (hf : (w.fwHeap this).mpLogfile ≠ none) :
    ((rDebug_Filewriter.rotate_ondemand w this).fwHeap this).mpLogfile ≠ none := by
  cases h : (w.fwHeap this).mpLogfile with
  | none => exact absurd h hf
  | some f =>
    cases f with
    | mk b =>
      cases b with
      | true =>
        rw [(rotate_ondemand_open w this h hrun).1, h]
        simp
      | false =>
        unfold rDebug_Filewriter.rotate_ondemand
        rw [h]
        simp only [Bool.false_eq_true, if_false]
        split
        · simp only [rDebug_Filewriter.rotate]
          rw [h]
          simp
        · rw [h]
          simp

theorem write_file_logfile (w : World) (this : Nat) (loc : FileLineFunc_t)
    (t : QDateTime) (L : rMsgType) (id : Nat) (line : QString) (hrun : w.halted = none)
    (hf : (w.fwHeap this).mpLogfile ≠ none) :
    ((rDebug_Filewriter.write_file w this loc t L id line).fwHeap this).mpLogfile ≠ none := by
  unfold rDebug_Filewriter.write_file
  split
  · exact hf
  · have hh := rotate_ondemand_halted w this hf
    rw [hrun] at hh
    rw [andThen_running _ _ hh, write_file_raw_fwHeap]
    exact rotate_ondemand_logfile w this hrun hf

theorem QFileBackendWriter_wf (w : World) (r : rDebugBase) (c : rMsgType)
    (hrun : w.halted = none) (hwf : w.wf = true) :
    (rDebugBase.QFileBackendWriter w r c).wf = true := by
  have hst := QFileBackendWriter_statics w r c
  simp only [World.statics, Prod.mk.injEq] at hst
  obtain ⟨_, _, _, _, h5, _⟩ := hst
  unfold World.wf
  rw [h5]
  cases hp : w.pFilewriter with
  | none => rfl
  | some p =>
    simp only []
    have hfile := wf_logfile w p hwf hp
    have : ((rDebugBase.QFileBackendWriter w r c).fwHeap p).mpLogfile ≠ none := by
      unfold rDebugBase.QFileBackendWriter
      split
      · exact hfile
      · rw [hp]
        exact write_file_logfile w p _ _ _ _ _ hrun hfile
    cases hh : ((rDebugBase.QFileBackendWriter w r c).fwHeap p).mpLogfile with
    | none => exact absurd hh this
    | some _ => rfl

theorem QFileBackendWriter_halted (w : World) (r : rDebugBase) (c : rMsgType)
    (hrun : w.halted = none) (hwf : w.wf = true) :
    (rDebugBase.QFileBackendWriter w r c).halted = none := by
  unfold rDebugBase.QFileBackendWriter
  split
  · exact hrun
  · cases hp : w.pFilewriter with
    | none => exact hrun
    | some p => exact write_file_halted w p _ _ _ _ _ hrun (wf_logfile w p hwf hp)

/-- After `output` the process still runs, unless `qFatal` was called, and the active file
writer still has its log file object. -/
theorem output_running_wf (w : World) (r : rDebugBase) (c : rMsgType)
    (hS : r.mLevel.isSeverity = true) (hrun : w.halted = none) (hwf : w.wf = true)
    (hE : ¬ (w.globalLevel.toInt ≥ c.toInt ∧ r.mLevel = rMsgType.Emergency)) :
    (rDebugBase.output w r c).halted = none ∧ (rDebugBase.output w r c).wf = true := by
  have e1 := QSignalBackendWriter_eq w r c
  have e2 := QDebugBackendWriter_eq { w with trace := w.trace ++ sigPart w r c } r c hS
  have s1 : (rDebugBase.QSignalBackendWriter w r c).andThen
        (fun w => rDebugBase.QDebugBackendWriter w r c)
      = rDebugBase.QDebugBackendWriter (rDebugBase.QSignalBackendWriter w r c) r c :=
    andThen_running _ _ (by rw [e1]; exact hrun)
  unfold rDebugBase.output
  simp only []
  rw [s1, e1, e2]
  rw [andThen_running _ _ (by simpa [hE] using hrun)]
  constructor
  · exact QFileBackendWriter_halted _ _ _ (by simpa [hE] using hrun)
      (by simpa [World.wf] using hwf)
  · exact QFileBackendWriter_wf _ _ _ (by simpa [hE] using hrun)
      (by simpa [World.wf] using hwf)

/-- An Emergency record that passes the global threshold ends the process in `output`. -/
theorem output_halted_fatal (w : World) (r : rDebugBase) (c : rMsgType)
    (hS : r.mLevel.isSeverity = true) (hrun : w.halted = none)
    (hE : w.globalLevel.toInt ≥ c.toInt ∧ r.mLevel = rMsgType.Emergency) :
    (rDebugBase.output w r c).halted = some Halt.fatal := by
  have e1 := QSignalBackendWriter_eq w r c
  have e2 := QDebugBackendWriter_eq { w with trace := w.trace ++ sigPart w r c } r c hS
  have s1 : (rDebugBase.QSignalBackendWriter w r c).andThen
        (fun w => rDebugBase.QDebugBackendWriter w r c)
      = rDebugBase.QDebugBackendWriter (rDebugBase.QSignalBackendWriter w r c) r c :=
    andThen_running _ _ (by rw [e1]; exact hrun)
  unfold rDebugBase.output
  simp only []
  rw [s1, e1, e2]
  rw [andThen_halted _ _ (by simp [hE])]
  simp only []
  rw [if_pos hE]

/-- C8, as claimed, fails: with the global threshold at Warning and no broadcast or file
sink, calling `output` twice on an Error record writes it to the console twice, while one
call writes it once. -/
theorem C8_counterexample_second_output_delivers_again :
    World.initial.newEvents
        ((rDebugBase.output World.initial (rDebugBase.sample rMsgType.Error "x")
            rMsgType.Error).andThen
          fun w => rDebugBase.output w (rDebugBase.sample rMsgType.Error "x") rMsgType.Error)
      ≠ World.initial.newEvents
          (rDebugBase.output World.initial (rDebugBase.sample rMsgType.Error "x")
            rMsgType.Error)
    ∧ (World.initial.newEvents
        ((rDebugBase.output World.initial (rDebugBase.sample rMsgType.Error "x")
            rMsgType.Error).andThen
          fun w => rDebugBase.output w (rDebugBase.sample rMsgType.Error "x")
            rMsgType.Error)).length = 2 := by
  decide

/-- C8, amended. `rDebugBase::output` has no guard: for a record of one of the eight
severities, a running process and an active file writer holding its log file object, the
deliveries of two successive calls of `output` on the same record are the deliveries of one
call followed by the same deliveries once more; only when the first call ended the process
(an Emergency record passing the global threshold, `qFatal`) does the second call deliver
nothing. -/
theorem C8_output_twice_delivers_twice (w : World) (r : rDebugBase)
    (hS : r.mLevel.isSeverity = true) (hrun : w.halted = none) (hwf : w.wf = true) :
    w.newEvents ((rDebugBase.output w r r.mLevel).andThen
        fun v => rDebugBase.output v r r.mLevel)
      = w.newEvents (rDebugBase.output w r r.mLevel)
        ++ (if w.globalLevel.toInt ≥ r.mLevel.toInt ∧ r.mLevel = rMsgType.Emergency then []
            else w.newEvents (rDebugBase.output w r r.mLevel)) := by
  have ht := output_trace w r r.mLevel hS hrun hwf
  by_cases hE : w.globalLevel.toInt ≥ r.mLevel.toInt ∧ r.mLevel = rMsgType.Emergency
  · have hh : (rDebugBase.output w r r.mLevel).halted ≠ none := by
      rw [output_halted_fatal w r r.mLevel hS hrun hE]
      simp
    rw [andThen_halted _ _ hh, if_pos hE, List.append_nil]
  · obtain ⟨h2run, h2wf⟩ := output_running_wf w r r.mLevel hS hrun hwf hE
    rw [andThen_running _ _ h2run, if_neg hE]
    have ht2 := output_trace (rDebugBase.output w r r.mLevel) r r.mLevel hS h2run h2wf
    obtain ⟨p1, p2, p3⟩ := parts_of_statics w (rDebugBase.output w r r.mLevel) r r.mLevel
      (output_statics w r r.mLevel hS)
    have hst := output_statics w r r.mLevel hS
    simp only [World.statics, Prod.mk.injEq] at hst
    rw [if_neg hE] at ht
    rw [p1, p2, p3, hst.1, if_neg hE, ht] at ht2
    have hone := newEvents_append w _ _ (by rw [ht, List.append_assoc, List.append_assoc])
    rw [hone]
    apply newEvents_append
    rw [ht2]
    simp [List.append_assoc]

/-- C8 (amended) at a concrete input: an Error record finalized twice in
`World.withBothSinks`. -/
theorem C8_output_twice_witness :
    ((rDebugBase.sample rMsgType.Error "x").mLevel.isSeverity = true
      ∧ World.withBothSinks.halted = none ∧ World.withBothSinks.wf = true)
    ∧ World.withBothSinks.newEvents
        ((rDebugBase.output World.withBothSinks (rDebugBase.sample rMsgType.Error "x")
            (rDebugBase.sample rMsgType.Error "x").mLevel).andThen
          fun v => rDebugBase.output v (rDebugBase.sample rMsgType.Error "x")
            (rDebugBase.sample rMsgType.Error "x").mLevel)
      = World.withBothSinks.newEvents
          (rDebugBase.output World.withBothSinks (rDebugBase.sample rMsgType.Error "x")
            (rDebugBase.sample rMsgType.Error "x").mLevel)
        ++ (if World.withBothSinks.globalLevel.toInt
                  ≥ (rDebugBase.sample rMsgType.Error "x").mLevel.toInt
                ∧ (rDebugBase.sample rMsgType.Error "x").mLevel = rMsgType.Emergency then []
            else World.withBothSinks.newEvents
              (rDebugBase.output World.withBothSinks (rDebugBase.sample rMsgType.Error "x")
                (rDebugBase.sample rMsgType.Error "x").mLevel)) :=
  ⟨⟨by decide, by decide, by decide⟩,
   C8_output_twice_delivers_twice World.withBothSinks (rDebugBase.sample rMsgType.Error "x")
     (by decide) (by decide) (by decide)⟩

/-! ## C10: the 16-digit log id -/

theorem digitChar_hex : ∀ d, d < 16 →
    isHexDigit (Nat.digitChar d) = true ∧ hexDigitValue (Nat.digitChar d) = d := by
  decide

theorem foldl_toDigitsCore (fuel : Nat) :
    ∀ (n : Nat) (ds : List Char), n < fuel →
      (Nat.toDigitsCore 16 fuel n ds).foldl (fun acc c => 16 * acc + hexDigitValue c) 0
        = ds.foldl (fun acc c => 16 * acc + hexDigitValue c) n := by
  induction fuel with
  | zero =>
    intro n ds h
    omega
  | succ fuel ih =>
    intro n ds h
    have hd := (digitChar_hex (n % 16) (Nat.mod_lt _ (by decide))).2
    simp only [Nat.toDigitsCore]
    by_cases h0 : n / 16 = 0
    · rw [if_pos h0]
      simp only [List.foldl_cons, hd]
      have : 16 * 0 + n % 16 = n := by omega
      rw [this]
    · rw [if_neg h0, ih (n / 16) _ (by omega)]
      simp only [List.foldl_cons, hd]
      have : 16 * (n / 16) + n % 16 = n := by omega
      rw [this]

theorem all_hex_toDigitsCore (fuel : Nat) :
    ∀ (n : Nat) (ds : List Char), (∀ c ∈ ds, isHexDigit c = true) →
      ∀ c ∈ Nat.toDigitsCore 16 fuel n ds, isHexDigit c = true := by
  induction fuel with
  | zero =>
    intro n ds h
    simpa [Nat.toDigitsCore] using h
  | succ fuel ih =>
    intro n ds h
    have hd := (digitChar_hex (n % 16) (Nat.mod_lt _ (by decide))).1
    have hcons : ∀ c ∈ Nat.digitChar (n % 16) :: ds, isHexDigit c = true := by
      intro c hc
      rcases List.mem_cons.mp hc with rfl | hc
      · exact hd
      · exact h c hc
    simp only [Nat.toDigitsCore]
    by_cases h0 : n / 16 = 0
    · rw [if_pos h0]
      exact hcons
    · rw [if_neg h0]
      exact ih (n / 16) _ hcons

theorem foldl_zeros (k : Nat) (l : List Char) :
    (List.replicate k '0' ++ l).foldl (fun acc c => 16 * acc + hexDigitValue c) 0
      = l.foldl (fun acc c => 16 * acc + hexDigitValue c) 0 := by
  induction k with
  | zero => rfl
  | succ k ih =>
    rw [List.replicate_succ, List.cons_append, List.foldl_cons]
    have : 16 * 0 + hexDigitValue '0' = 0 := by decide
    rw [this]
    exact ih

/-- `QString::arg( a, 8, 16, '0' )` for `a` below `2^32`: exactly eight hexadecimal digits
that read back as `a`. -/
theorem argNum_hex8 (a : Nat) (ha : a < 2 ^ 32) :
    (QString.argNum a 8 16 '0').length = 8
    ∧ (∀ c ∈ (QString.argNum a 8 16 '0').data, isHexDigit c = true)
    ∧ parseHex (QString.argNum a 8 16 '0') = a := by
  have hlen : (Nat.toDigits 16 a).length ≤ 8 :=
    Nat.toDigitsCore_length 16 (by decide) (a + 1) a 8 (by omega) (by decide)
  refine ⟨?_, ?_, ?_⟩
  · simp only [QString.argNum, String.length, List.leftpad_length]
    omega
  · intro c hc
    simp only [QString.argNum, List.leftpad, List.mem_append, List.mem_replicate] at hc
    rcases hc with ⟨_, rfl⟩ | hc
    · decide
    · exact all_hex_toDigitsCore (a + 1) a [] (by simp) c hc
  · simp only [parseHex, QString.argNum, List.leftpad]
    rw [foldl_zeros]
    exact foldl_toDigitsCore (a + 1) a [] (by omega)

/-- C10. For every 64-bit unsigned id, `rDebugBase::getLogIdStr(id, 16)` is
`"0x" + H + ":" + L` where `H` and `L` are each exactly 8 hexadecimal digits, and reading
them back gives `hex(H) * 2^32 + hex(L) = id`. -/
theorem C10_getLogIdStr16_roundtrip (id : Nat) (hid : id < 2 ^ 64) :
    ∃ H L : String,
      rDebugBase.getLogIdStr id 16 = "0x" ++ H ++ ":" ++ L
      ∧ H.length = 8 ∧ L.length = 8
      ∧ (∀ c ∈ H.data, isHexDigit c = true) ∧ (∀ c ∈ L.data, isHexDigit c = true)
      ∧ parseHex H * 2 ^ 32 + parseHex L = id := by
  have hhi : id >>> 32 < 2 ^ 32 := by
    rw [Nat.shiftRight_eq_div_pow]
    omega
  have hlo : id &&& 0xFFFFFFFF = id % 2 ^ 32 := by
    have := Nat.and_pow_two_sub_one_eq_mod id 32
    simpa using this
  have hlo2 : id &&& 0xFFFFFFFF < 2 ^ 32 := by
    rw [hlo]
    exact Nat.mod_lt _ (by decide)
  obtain ⟨h1, h2, h3⟩ := argNum_hex8 (id >>> 32) hhi
  obtain ⟨l1, l2, l3⟩ := argNum_hex8 (id &&& 0xFFFFFFFF) hlo2
  refine ⟨QString.argNum (id >>> 32) 8 16 '0', QString.argNum (id &&& 0xFFFFFFFF) 8 16 '0',
    ?_, h1, l1, h2, l2, ?_⟩
  · unfold rDebugBase.getLogIdStr
    rw [if_neg (by decide), if_pos rfl]
  · rw [h3, l3, hlo, Nat.shiftRight_eq_div_pow]
    omega

/-- C10 at a concrete input: the id `0x0123456789abcdef`. -/
theorem C10_getLogIdStr16_witness :
    (0x0123456789abcdef < 2 ^ 64)
    ∧ ∃ H L : String,
      rDebugBase.getLogIdStr 0x0123456789abcdef 16 = "0x" ++ H ++ ":" ++ L
      ∧ H.length = 8 ∧ L.length = 8
      ∧ (∀ c ∈ H.data, isHexDigit c = true) ∧ (∀ c ∈ L.data, isHexDigit c = true)
      ∧ parseHex H * 2 ^ 32 + parseHex L = 0x0123456789abcdef :=
  ⟨by decide, C10_getLogIdStr16_roundtrip 0x0123456789abcdef (by decide)⟩

/-- Concrete values of `getLogIdStr` for the three formats. -/
theorem getLogIdStr_samples :
    rDebugBase.getLogIdStr 0x0123456789abcdef 16 = "0x01234567:89abcdef"
    ∧ rDebugBase.getLogIdStr 42 16 = "0x00000000:0000002a"
    ∧ rDebugBase.getLogIdStr 42 8 = "00000042"
    ∧ rDebugBase.getLogIdStr 42 0 = "42" := by
  decide

/-! ## The invariant `World.wf` -/

theorem open_logfile (w : World) (this : Nat) (a b : String) :
    ((rDebug_Filewriter.open w this a b).fwHeap this).mpLogfile = some ⟨true⟩ := by
  unfold rDebug_Filewriter.open rDebug_Filewriter.write_wrap
  simp only []
  rw [write_file_raw_fwHeap]
  simp

theorem open_wf (w : World) (this : Nat) (a b : String) (hp : w.pFilewriter = some this) :
    (rDebug_Filewriter.open w this a b).wf = true := by
  have hst := open_statics w this a b
  simp only [World.statics, Prod.mk.injEq] at hst
  unfold World.wf
  rw [hst.2.2.2.2.1, hp]
  simp only []
  rw [open_logfile]
  rfl

/-- The constructor of the file writer establishes `World.wf`. -/
theorem filewriter_ctor_wf (w : World) (this : Nat) (L : rMsgType) (B S : Int) :
    (rDebug_Filewriter.ctor w this L B S).wf = true := by
  unfold rDebug_Filewriter.ctor
  simp only []
  split
  · rfl
  · apply open_wf
    split <;> rfl

/-- The destructor of the file writer, run in a running process, keeps `World.wf`. -/
theorem filewriter_dtor_wf (w : World) (this : Nat) (hrun : w.halted = none)
    (hwf : w.wf = true) :
    (rDebug_Filewriter.dtor w this).wf = true := by
  cases hf : (w.fwHeap this).mpLogfile with
  | some f =>
    have h := (filewriter_dtor_slot w this hrun (by rw [hf]; simp)).1
    unfold World.wf
    rw [h]
  | none =>
    have hst := write_file_raw_statics w this ⟨some "rDebug.cpp", 232, some "DTor"⟩ w.now
      rMsgType.Notice 0 "========== logfile closed =========="
    simp only [World.statics, Prod.mk.injEq] at hst
    unfold rDebug_Filewriter.dtor rDebug_Filewriter.close rDebug_Filewriter.write_wrap
    simp only []
    rw [write_file_raw_fwHeap, hf]
    simp only []
    rw [andThen_halted _ _ (by simp)]
    unfold World.wf at hwf ⊢
    simp only []
    rw [hst.2.2.2.2.1]
    exact hwf


/-! ## C11: the log id delivered at finalization -/

/-- What `writer` stores: the level and flag it was given, and the explicit log id, or the
process id when the explicit id is 0; this holds for a null template and below the global
threshold too. -/
theorem writer_fields {V : Type} (vsnprintf : String → V → String) (w : World)
    (r : rDebugBase) (Level : rMsgType) (LogId : Nat) (withLogId : Bool)
    (msg : Option String) (valist : V) :
    (rDebugBase.writer vsnprintf w r Level LogId withLogId msg valist).mLevel = Level
    ∧ (rDebugBase.writer vsnprintf w r Level LogId withLogId msg valist).mLogId
        = (if LogId ≠ 0 then LogId else w.applicationPid % 2 ^ 64)
    ∧ (rDebugBase.writer vsnprintf w r Level LogId withLogId msg valist).mWithLogId
        = withLogId := by
  unfold rDebugBase.writer
  simp only []
  split
  · exact ⟨rfl, rfl, rfl⟩
  · cases msg <;> exact ⟨rfl, rfl, rfl⟩

/-- Every log id the destructor hands to a sink is the record's `mLogId`. -/
theorem dtor_deliveredLogIds (w : World) (r : rDebugBase)
    (hS : r.mLevel.isSeverity = true) (hrun : w.halted = none) (hwf : w.wf = true) :
    ∀ id ∈ w.deliveredLogIds (rDebugBase.dtor w r), id = r.mLogId := by
  have ht := output_trace w r r.mLevel hS hrun hwf
  rw [List.append_assoc, List.append_assoc] at ht
  unfold World.deliveredLogIds rDebugBase.dtor
  rw [newEvents_append _ _ _ ht]
  intro id hid
  simp only [List.mem_filterMap, List.mem_append] at hid
  obtain ⟨e, he, hid⟩ := hid
  unfold sigPart conPart filePart at he
  rcases he with he | he | he
  · split_ifs at he <;> simp_all [Event.logId?]
  · split_ifs at he <;> simp_all [Event.logId?]
  · split_ifs at he <;> simp_all [Event.logId?]

/-- On the printf-style path the claim of C11 holds: a record that went through `writer`
delivers the explicit log id when it is not 0 and the process id when it is 0. -/
theorem writer_record_delivers_pid_or_explicit {V : Type} (vsnprintf : String → V → String)
    (w : World) (r : rDebugBase) (Level : rMsgType) (LogId : Nat) (withLogId : Bool)
    (msg : Option String) (valist : V)
    (hS : Level.isSeverity = true) (hrun : w.halted = none) (hwf : w.wf = true) :
    ∀ id ∈ w.deliveredLogIds
        (rDebugBase.dtor w (rDebugBase.writer vsnprintf w r Level LogId withLogId msg valist)),
      id = (if LogId ≠ 0 then LogId else w.applicationPid % 2 ^ 64) := by
  obtain ⟨h1, h2, _⟩ := writer_fields vsnprintf w r Level LogId withLogId msg valist
  intro id hid
  rw [← h2]
  exact dtor_deliveredLogIds w _ (by rw [h1]; exact hS) hrun hwf id hid

/-- A record with a non-zero log id given to the constructor delivers that id, on the
stream-style path too. -/
theorem stream_record_delivers_explicit (w : World) (file func : Option String) (line : Int)
    (Level : rMsgType) (LogId : Nat) (str : QString)
    (hS : Level.isSeverity = true) (hrun : w.halted = none) (hwf : w.wf = true) :
    ∀ id ∈ w.deliveredLogIds
        (rDebugBase.dtor w ((rDebugBase.ctor w file line func Level LogId).shiftLeft_QString str)),
      id = LogId :=
  dtor_deliveredLogIds w _ hS hrun hwf

/-- C11 fails on the code for stream-style records. The record `rDebug(Error) << "x"`,
created with log id 0 and `mWithLogId` true and never passed through `writer`, is delivered
to the broadcast sink and to the file sink with log id 0, while the process id is 4711; the
console line shows `00000000`. Only `writer` replaces a zero log id by the process id. -/
theorem C11_stream_record_delivers_zero_logId :
    rDebugBase.streamSample.mLogId = 0
    ∧ rDebugBase.streamSample.mWithLogId = true
    ∧ World.withBothSinks.applicationPid = 4711
    ∧ World.withBothSinks.deliveredLogIds
        (rDebugBase.dtor World.withBothSinks rDebugBase.streamSample) = [0, 0]
    ∧ Event.console QtStream.qCritical "2019-01-01 00:00:00,000 [Err!] 00000000, x"
        ∈ World.withBothSinks.newEvents
            (rDebugBase.dtor World.withBothSinks rDebugBase.streamSample) := by
  decide

/-! ## C12: `writer` with a null format template -/

/-- The console sink receives the record from `output` exactly when the global threshold
lets its severity pass. -/
theorem output_console_iff (w : World) (r : rDebugBase)
    (hS : r.mLevel.isSeverity = true) (hrun : w.halted = none) (hwf : w.wf = true) :
    (w.newEvents (rDebugBase.output w r r.mLevel)).any Event.isConsole = true
      ↔ w.globalLevel.toInt ≥ r.mLevel.toInt := by
  have ht := output_trace w r r.mLevel hS hrun hwf
  rw [List.append_assoc, List.append_assoc] at ht
  rw [newEvents_append _ _ _ ht]
  unfold sigPart conPart filePart
  split_ifs <;> simp_all [Event.isSignal, Event.isConsole]

/-- C12, as claimed, fails: `writer` called with a null template on a Debug record with log
id 0 and the flag set stores the severity Error, the log id 5 and the flag false; and the
record, with its empty buffer, is still written to the console when it is destroyed. -/
theorem C12_counterexample_null_template_changes_record :
    (rDebugBase.writer (fun (s : String) (_ : Unit) => s) World.initial
        (rDebugBase.sample rMsgType.Debug "") rMsgType.Error 5 false none ()).mLevel
      ≠ (rDebugBase.sample rMsgType.Debug "").mLevel
    ∧ (rDebugBase.writer (fun (s : String) (_ : Unit) => s) World.initial
        (rDebugBase.sample rMsgType.Debug "") rMsgType.Error 5 false none ()).mLogId
      ≠ (rDebugBase.sample rMsgType.Debug "").mLogId
    ∧ (rDebugBase.writer (fun (s : String) (_ : Unit) => s) World.initial
        (rDebugBase.sample rMsgType.Debug "") rMsgType.Error 5 false none ()).mWithLogId
      ≠ (rDebugBase.sample rMsgType.Debug "").mWithLogId
    ∧ World.initial.newEvents
        (rDebugBase.dtor World.initial
          (rDebugBase.writer (fun (s : String) (_ : Unit) => s) World.initial
            (rDebugBase.sample rMsgType.Debug "") rMsgType.Error 5 false none ()))
      = [Event.console QtStream.qCritical "2019-01-01 00:00:00,000 [Err!] "] := by
  decide

/-- C12, amended. For every record state, severity (one of the eight levels) and logId,
`rDebugBase::writer` called with a null format template leaves the message buffer (and
the base, location, facility and time) unchanged, but stores the severity, the withLogId
flag and the log id (the process id when the given id is 0) exactly as for a non-null
template; the call itself delivers nothing, and the record is still dispatched when it is
destroyed: in a running process whose active file writer holds its log file object, the
console sink receives it if and only if the global threshold lets the stored severity
pass. -/
theorem C12_writer_null_template {V : Type} (vsnprintf : String → V → String) (w : World)
    (r : rDebugBase) (Level : rMsgType) (LogId : Nat) (withLogId : Bool) (valist : V)
    (hS : Level.isSeverity = true) (hrun : w.halted = none) (hwf : w.wf = true) :
    (rDebugBase.writer vsnprintf w r Level LogId withLogId none valist)
      = { r with
          mWithLogId := withLogId
          mLogId := if LogId ≠ 0 then LogId else w.applicationPid % 2 ^ 64
          mLevel := Level }
    ∧ (rDebugBase.writer vsnprintf w r Level LogId withLogId none valist).mMsgBuffer
        = r.mMsgBuffer
    ∧ ((w.newEvents (rDebugBase.dtor w
          (rDebugBase.writer vsnprintf w r Level LogId withLogId none valist))).any
            Event.isConsole = true
        ↔ w.globalLevel.toInt ≥ Level.toInt) := by
  have he : rDebugBase.writer vsnprintf w r Level LogId withLogId none valist
      = { r with
          mWithLogId := withLogId
          mLogId := if LogId ≠ 0 then LogId else w.applicationPid % 2 ^ 64
          mLevel := Level } := by
    unfold rDebugBase.writer
    simp only []
    split <;> rfl
  refine ⟨he, by rw [he], ?_⟩
  rw [he]
  exact output_console_iff w _ hS hrun hwf

/-- C12 (amended) at a concrete input: the entry point `error( 0, nullptr )` on a Debug
record in `World.withBothSinks`. -/
theorem C12_writer_null_template_witness :
    (rMsgType.Error.isSeverity = true ∧ World.withBothSinks.halted = none
      ∧ World.withBothSinks.wf = true)
    ∧ (rDebugBase.writer (fun (s : String) (_ : Unit) => s) World.withBothSinks
        (rDebugBase.sample rMsgType.Debug "") rMsgType.Error 0 true none ()).mMsgBuffer
      = (rDebugBase.sample rMsgType.Debug "").mMsgBuffer :=
  ⟨⟨by decide, by decide, by decide⟩,
   (C12_writer_null_template (fun (s : String) (_ : Unit) => s) World.withBothSinks
      (rDebugBase.sample rMsgType.Debug "") rMsgType.Error 0 true () (by decide) (by decide)
      (by decide)).2.1⟩

/-! ## C13: the floor of the file writer's size limit -/

/-- The constructor stores `qMax( MaxSize, 0x10000 )`, whatever the threshold. -/
theorem filewriter_ctor_mMaxSize (w : World) (this : Nat) (L : rMsgType) (B S : Int) :
    ((rDebug_Filewriter.ctor w this L B S).fwHeap this).mMaxSize = max S 0x10000 := by
  unfold rDebug_Filewriter.ctor
  simp only []
  split
  · simp
  · unfold rDebug_Filewriter.open rDebug_Filewriter.write_wrap
    simp only []
    rw [write_file_raw_fwHeap]
    split <;> simp [rDebug_Filewriter.rotate]

/-- A mutator call keeps the floor unless it is `setMaxSize` with an argument below it. -/
theorem FilewriterCall_run_floor (w : World) (this : Nat) (c : FilewriterCall)
    (hc : ∀ n, c = FilewriterCall.setMaxSize n → 65536 ≤ n)
    (h : 65536 ≤ (w.fwHeap this).mMaxSize) :
    65536 ≤ ((FilewriterCall.run w this c).fwHeap this).mMaxSize := by
  cases c with
  | setMaxSize n =>
    simp only [FilewriterCall.run, rDebug_Filewriter.setMaxSize, Function.update_same]
    exact hc n rfl
  | setMaxBackups n =>
    simp only [FilewriterCall.run, rDebug_Filewriter.setMaxBackups, Function.update_same]
    exact h
  | setMaxLevel L => exact h
  | enableCodeLocations b => exact h

/-- The floor survives every sequence of mutator calls in which `setMaxSize` is only given
arguments of at least 65536; `setMaxBackups`, `setMaxLevel` and `enableCodeLocations` never
touch `mMaxSize`. -/
theorem FilewriterCall_runAll_floor (this : Nat) (calls : List FilewriterCall) :
    ∀ (w : World), (∀ n, FilewriterCall.setMaxSize n ∈ calls → 65536 ≤ n) →
      65536 ≤ (w.fwHeap this).mMaxSize →
      65536 ≤ ((FilewriterCall.runAll w this calls).fwHeap this).mMaxSize := by
  induction calls with
  | nil =>
    intro w _ h
    exact h
  | cons c cs ih =>
    intro w hc h
    simp only [FilewriterCall.runAll, List.foldl_cons]
    apply ih
    · intro n hn
      exact hc n (List.mem_cons_of_mem _ hn)
    · apply FilewriterCall_run_floor _ _ _ _ h
      intro n hn
      exact hc n (by rw [hn]; exact List.mem_cons_self _ _)

/-- C13 fails on the code. The constructor raises a requested `MaxSize` of 0 to 65536, but
`setMaxSize( 100 )` afterwards stores 100: the stored maximum size is below 65536 and
`mMaxSize - 128`, which `oversized()` compares with, is negative, so the freshly opened log
file already counts as oversized. -/
theorem C13_setMaxSize_stores_below_floor :
    ((rDebug_Filewriter.ctor World.initial 1 rMsgType.Warning 3 0).fwHeap 1).mMaxSize = 65536
    ∧ ((FilewriterCall.runAll (rDebug_Filewriter.ctor World.initial 1 rMsgType.Warning 3 0) 1
          [FilewriterCall.setMaxSize 100]).fwHeap 1).mMaxSize = 100
    ∧ ¬ (65536 ≤ ((FilewriterCall.runAll
          (rDebug_Filewriter.ctor World.initial 1 rMsgType.Warning 3 0) 1
          [FilewriterCall.setMaxSize 100]).fwHeap 1).mMaxSize)
    ∧ ¬ (0 < ((FilewriterCall.runAll
          (rDebug_Filewriter.ctor World.initial 1 rMsgType.Warning 3 0) 1
          [FilewriterCall.setMaxSize 100]).fwHeap 1).mMaxSize - 128)
    ∧ rDebug_Filewriter.oversized
        (FilewriterCall.runAll (rDebug_Filewriter.ctor World.initial 1 rMsgType.Warning 3 0) 1
          [FilewriterCall.setMaxSize 100]) 1 = true := by
  decide

/-! ## C14: the stream `to_xDebug` chooses -/

/-- C14. For a running process, `to_xDebug` hands the message to `qFatal` for Emergency and
the process ends; to `qCritical` for Alert, Critical and Error; to `qWarning` for Warning;
to `qDebug` for Notice, Informational and Debug; and among the eight severities Emergency is
the only one after which the process no longer runs. -/
theorem C14_to_xDebug_stream_choice (w : World) (msg : QString) (hrun : w.halted = none) :
    ((to_xDebug w rMsgType.Emergency msg).trace = w.trace ++ [Event.console QtStream.qFatal msg]
      ∧ (to_xDebug w rMsgType.Emergency msg).halted = some Halt.fatal)
    ∧ (∀ S, S = rMsgType.Alert ∨ S = rMsgType.Critical ∨ S = rMsgType.Error →
        (to_xDebug w S msg).trace = w.trace ++ [Event.console QtStream.qCritical msg])
    ∧ (to_xDebug w rMsgType.Warning msg).trace
        = w.trace ++ [Event.console QtStream.qWarning msg]
    ∧ (∀ S, S = rMsgType.Notice ∨ S = rMsgType.Informational ∨ S = rMsgType.Debug →
        (to_xDebug w S msg).trace = w.trace ++ [Event.console QtStream.qDebug msg])
    ∧ (∀ S, S.isSeverity = true →
        ((to_xDebug w S msg).halted ≠ none ↔ S = rMsgType.Emergency)) := by
  refine ⟨⟨rfl, rfl⟩, ?_, rfl, ?_, ?_⟩
  · rintro S (rfl | rfl | rfl) <;> rfl
  · rintro S (rfl | rfl | rfl) <;> rfl
  · intro S hS
    cases S <;> simp [to_xDebug, hrun] at hS ⊢

/-- C14 at a concrete input: the initial process and the message "m". -/
theorem C14_to_xDebug_witness :
    World.initial.halted = none
    ∧ ((to_xDebug World.initial rMsgType.Emergency "m").trace
        = World.initial.trace ++ [Event.console QtStream.qFatal "m"]
      ∧ (to_xDebug World.initial rMsgType.Emergency "m").halted = some Halt.fatal) :=
  ⟨by decide, (C14_to_xDebug_stream_choice World.initial "m" (by decide)).1⟩

end RDebug
